import Mathlib

/-!
Shallow embedding of the core of the Ralph-Mode repository
(src/dashboard-server.js and the main watcher/orchestrator script).

Dashboard side (src/dashboard-server.js):
  `updateRalphState` (the event reducer), `getSerializableState`,
  the WebSocket connection handler of `startDashboard`, and `emitEvent`.

Orchestrator side (the main script):
  `isNonRetryableError`, `withRetry`, `countAutoFixable`,
  `getAutoFixableForFile`, `verifyFix`, the per-file fix transaction of
  `runRalphCycle`, `runRalphCycle` itself, and the main loop of
  `runRalphMode`.

JavaScript conventions modelled explicitly:
  * `undefined`-able fields become `Option`;
  * `x || d` on numbers/strings keeps `x` unless it is absent, 0 or ""
    (falsy), in which case `d` is used — see `jsOrQ`, `jsOrNat`, `jsOrStr`;
  * a JS `Map` is an insertion-ordered association list, a JS `Set` an
    insertion-ordered duplicate-free list;
  * monetary costs are rationals (`ℚ`);
  * the file system is a total map from path to content (`String → String`);
  * wall-clock timestamps are not modelled (no claim mentions them).
-/

/-- JS `x || d` for an optional rational (0 is falsy). -/
def jsOrQ : Option ℚ → ℚ → ℚ
  | some x, d => if x = 0 then d else x
  | none, d => d

/-- JS `x || d` for an optional natural number (0 is falsy). -/
def jsOrNat : Option Nat → Nat → Nat
  | some x, d => if x = 0 then d else x
  | none, d => d

/-- JS `x || d` for an optional string ("" is falsy). -/
def jsOrStr : Option String → String → String
  | some x, d => if x = "" then d else x
  | none, d => d

/-- Issue object as carried in a `detection_complete` event payload
(dashboard-server.js consumes `data.issues`; the orchestrator emits it
with `id`, `file`, `line`, `severity`, `type`, `message`, `autoFixable`). -/
structure InIssue where
  id : Option String
  file : String
  line : Nat
  severity : String
  itype : String
  message : String
  autoFixable : Option Bool
  deriving DecidableEq, Repr

/-- Issue object as stored in the dashboard state map
(`{ ...issue, id, status: 'detected' }`, with `progress` added later). -/
structure DIssue where
  id : String
  file : String
  line : Nat
  severity : String
  itype : String
  message : String
  autoFixable : Option Bool
  status : String
  progress : Option ℚ
  deriving DecidableEq, Repr

/-- Event messages fed to the dashboard reducer (`updateRalphState`'s
`eventName`/`data` pairs, one constructor per emitted event name). -/
inductive DashEvent where
  | ralph_started (maxCycles : Option Nat) (budgetHard : Option ℚ)
  | cycle_started (cycle : Nat) (maxCycles : Nat)
  | detection_started (fileCount : Nat)
  | detection_complete (issues : Option (List InIssue)) (cost : Option ℚ)
  | fix_started (file : String) (issueIds : Option (List String))
  | fix_progress (file : String) (progress : ℚ)
  | fix_complete (fixed : Option (List String)) (failed : Option (List String))
  | cost_update (totalCost : Option ℚ)
  | budget_warning (currentCost : ℚ) (warningThreshold : ℚ)
  | verification_result (file : String) (verified : Bool) (restored : Bool)
  | cycle_complete (cost : Option ℚ)
  | ralph_complete (totalCost : Option ℚ) (status : String) (reason : String)
  | log_entry (message : String) (level : Option String)
  deriving DecidableEq, Repr

/-- Dashboard-side run state (the `ralphState` object of
dashboard-server.js; `startTime` is not modelled). -/
structure RalphDashState where
  started : Bool
  cycle : Nat
  maxCycles : Nat
  budgetHard : ℚ
  totalCost : ℚ
  issues : List (String × DIssue)
  fixing : List String
  completed : List String
  logs : List (String × String)
  deriving DecidableEq, Repr

/-- The initial `ralphState` of dashboard-server.js. -/
def initialRalphDashState : RalphDashState :=
  { started := false, cycle := 0, maxCycles := 10, budgetHard := 20,
    totalCost := 0, issues := [], fixing := [], completed := [], logs := [] }

/-- JS `Set.add`: append unless already present. -/
def addSet (l : List String) (x : String) : List String :=
  if l.contains x then l else l ++ [x]

/-- JS `Map.set`: overwrite in place if the key exists, else append. -/
def msetD (m : List (String × DIssue)) (k : String) (v : DIssue) :
    List (String × DIssue) :=
  if m.any (fun p => p.1 == k) then
    m.map (fun p => if p.1 == k then (k, v) else p)
  else m ++ [(k, v)]

/-- One step of the `data.issues.forEach` loop in the reducer's
`detection_complete` case: derive the id, skip ids already completed. -/
def detStep (s : RalphDashState) (issue : InIssue) : RalphDashState :=
  let id := jsOrStr issue.id (issue.file ++ ":" ++ toString issue.line)
  let stored : DIssue :=
    { id := id, file := issue.file, line := issue.line,
      severity := issue.severity, itype := issue.itype,
      message := issue.message, autoFixable := issue.autoFixable,
      status := "detected", progress := none }
  if s.completed.contains id then s
  else { s with issues := msetD s.issues id stored }

/-- One step of the `data.issueIds.forEach` loop in the reducer's
`fix_started` case. -/
def startFixStep (s : RalphDashState) (id : String) : RalphDashState :=
  { s with fixing := addSet s.fixing id,
           issues := s.issues.map (fun p =>
             if p.1 == id then (p.1, { p.2 with status := "fixing", progress := some 0 })
             else p) }

/-- One step of the `data.fixed.forEach` loop in the reducer's
`fix_complete` case. -/
def fixDoneStep (s : RalphDashState) (id : String) : RalphDashState :=
  { s with fixing := s.fixing.filter (fun x => !(x == id)),
           completed := addSet s.completed id,
           issues := s.issues.filter (fun p => !(p.1 == id)) }

/-- One step of the `data.failed.forEach` loop in the reducer's
`fix_complete` case. -/
def fixFailStep (s : RalphDashState) (id : String) : RalphDashState :=
  { s with fixing := s.fixing.filter (fun x => !(x == id)),
           issues := s.issues.map (fun p =>
             if p.1 == id then (p.1, { p.2 with status := "failed" }) else p) }

/-- The dashboard event reducer, `updateRalphState(eventName, data)` of
dashboard-server.js, translated case by case. -/
def updateRalphState (e : DashEvent) (s : RalphDashState) : RalphDashState :=
  match e with
  | .ralph_started maxCycles budgetHard =>
    { s with started := true, maxCycles := jsOrNat maxCycles 10,
             budgetHard := jsOrQ budgetHard 20, cycle := 0, totalCost := 0,
             issues := [], fixing := [], completed := [], logs := [] }
  | .cycle_started cycle maxCycles =>
    { s with cycle := cycle, maxCycles := maxCycles }
  | .detection_started _ => s
  | .detection_complete issues cost =>
    let s1 := { s with issues := [], fixing := [] }
    let s2 := match issues with
      | some l => l.foldl detStep s1
      | none => s1
    match cost with
    | some c => if c = 0 then s2 else { s2 with totalCost := s2.totalCost + c }
    | none => s2
  | .fix_started _ issueIds =>
    match issueIds with
    | some ids => ids.foldl startFixStep s
    | none => s
  | .fix_progress file progress =>
    { s with issues := s.issues.map (fun p =>
        if p.2.file == file && s.fixing.contains p.1 then
          (p.1, { p.2 with progress := some progress })
        else p) }
  | .fix_complete fixed failed =>
    let s1 := match fixed with
      | some l => l.foldl fixDoneStep s
      | none => s
    match failed with
    | some l => l.foldl fixFailStep s1
    | none => s1
  | .cost_update t => { s with totalCost := jsOrQ t s.totalCost }
  | .budget_warning _ _ => s
  | .verification_result _ _ _ => s
  | .cycle_complete c => { s with totalCost := jsOrQ c s.totalCost }
  | .ralph_complete t _ _ => { s with totalCost := jsOrQ t s.totalCost }
  | .log_entry message level =>
    let logs1 := s.logs ++ [(message, jsOrStr level ("info"))]
    { s with logs := if 100 < logs1.length then logs1.drop 1 else logs1 }

/-- Fold a list of events through the reducer. -/
def applyEvents (s : RalphDashState) (es : List DashEvent) : RalphDashState :=
  es.foldl (fun st e => updateRalphState e st) s

/-- Snapshot object sent to clients (`getSerializableState` of
dashboard-server.js). -/
structure SerializableState where
  started : Bool
  cycle : Nat
  maxCycles : Nat
  budgetHard : ℚ
  totalCost : ℚ
  issues : List DIssue
  fixing : List String
  completed : List String
  logs : List (String × String)
  deriving DecidableEq, Repr

/-- `getSerializableState()` of dashboard-server.js:
`issues: Array.from(ralphState.issues.values())`, sets to arrays. -/
def getSerializableState (s : RalphDashState) : SerializableState :=
  { started := s.started, cycle := s.cycle, maxCycles := s.maxCycles,
    budgetHard := s.budgetHard, totalCost := s.totalCost,
    issues := s.issues.map (fun p => p.2), fixing := s.fixing,
    completed := s.completed, logs := s.logs }

/-- A connected WebSocket client, abstracted to an id plus the two bits
`emitEvent` inspects: whether `readyState === OPEN` and whether `send`
throws. -/
structure DashClient where
  cid : Nat
  isOpen : Bool
  sendFails : Bool
  deriving DecidableEq, Repr

/-- A message sent over a WebSocket (the `type` field of the JSON). -/
inductive Msg where
  | connected
  | state_sync (data : SerializableState)
  | event (e : DashEvent)
  deriving DecidableEq, Repr

/-- Module-level mutable state of dashboard-server.js that the claims
touch: `ralphState`, `clients` and `isRunning`. -/
structure SrvState where
  dash : RalphDashState
  clients : List DashClient
  isRunning : Bool

/-- The `wss.on('connection')` handler of `startDashboard`: add the client,
send the `connected` ack, and send one `state_sync` snapshot to this
client only when `ralphState.started`.  Returns the new server state and
the list of (client id, message) sends performed. -/
def onConnect (s : SrvState) (c : DashClient) : SrvState × List (Nat × Msg) :=
  ({ s with clients := s.clients ++ [c] },
   (c.cid, Msg.connected) ::
     (if s.dash.started then
       [(c.cid, Msg.state_sync (getSerializableState s.dash))]
      else []))

/-- `emitEvent(eventName, data)` of dashboard-server.js: apply the reducer
first, return if the server is not running, else send the event to every
open client, removing (only) the clients whose `send` throws. -/
def emitEvent (e : DashEvent) (s : SrvState) : SrvState × List (Nat × Msg) :=
  let dash := updateRalphState e s.dash
  if s.isRunning = false then ({ s with dash := dash }, [])
  else
    ({ dash := dash,
       clients := s.clients.filter (fun c => !(c.isOpen && c.sendFails)),
       isRunning := s.isRunning },
     (s.clients.filter (fun c => c.isOpen && !c.sendFails)).map
       (fun c => (c.cid, Msg.event e)))

/-- Operations on the server observable in the claims: an event emission,
a client connecting, a client disconnecting (`ws.on('close')`). -/
inductive SrvOp where
  | emit (e : DashEvent)
  | connect (c : DashClient)
  | disconnect (cid : Nat)

/-- One server operation. -/
def srvStep (s : SrvState) (op : SrvOp) : SrvState × List (Nat × Msg) :=
  match op with
  | .emit e => emitEvent e s
  | .connect c => onConnect s c
  | .disconnect cid =>
    ({ s with clients := s.clients.filter (fun c => !(c.cid == cid)) }, [])

/-- Run a sequence of server operations, concatenating all sends. -/
def runOps (s : SrvState) : List SrvOp → SrvState × List (Nat × Msg)
  | [] => (s, [])
  | op :: rest =>
    let r1 := srvStep s op
    let r2 := runOps r1.1 rest
    (r2.1, r1.2 ++ r2.2)

/-- The subsequence of events emitted by a sequence of server operations. -/
def eventsOf (ops : List SrvOp) : List DashEvent :=
  ops.filterMap (fun op => match op with | .emit e => some e | _ => none)

/-- List-of-characters substring test (JS `String.prototype.includes`). -/
def charsHavePrefix : List Char → List Char → Bool
  | [], _ => true
  | _ :: _, [] => false
  | a :: pre, b :: l => a == b && charsHavePrefix pre l

/-- JS `s.includes(sub)`. -/
def strContainsSub (s sub : String) : Bool :=
  go s.data
where
  go : List Char → Bool
  | [] => sub.data.isEmpty
  | a :: l => charsHavePrefix sub.data (a :: l) || go l

/-- JS `String.prototype.toLowerCase`, restricted to the per-character
mapping (all signatures compared by `isNonRetryableError` are ASCII). -/
def lowerStr (s : String) : String :=
  String.mk (s.data.map Char.toLower)

/-- `isNonRetryableError(error)` of the orchestrator: an error is fatal
when its lower-cased message contains one of the listed signatures.  The
error object is abstracted to its message string. -/
def isNonRetryableError (msg : String) : Bool :=
  let m := lowerStr msg
  strContainsSub m ("not found") || strContainsSub m ("permission denied") ||
  strContainsSub m ("invalid") || strContainsSub m ("authentication") ||
  strContainsSub m ("401") || strContainsSub m ("403")

/-- The retry loop of `withRetry` from attempt `attempt` with `left`
retries still allowed after the current one (`left` encodes
`maxAttempts - attempt`, so `attempt < maxAttempts` iff `left ≠ 0`).
The operation is a function from the attempt number to that attempt's
outcome.  Returns the final outcome together with the list of backoff
delays slept, in order (`baseDelay * 2^(attempt-1)` before retrying
attempt + 1). -/
def withRetryAux {α : Type} (op : Nat → Except String α) (baseDelay : ℚ) :
    Nat → Nat → Except String α × List ℚ
  | attempt, left =>
    match op attempt with
    | .ok v => (.ok v, [])
    | .error e =>
      if isNonRetryableError e then (.error e, [])
      else
        match left with
        | 0 => (.error e, [])
        | left1 + 1 =>
          let r := withRetryAux op baseDelay (attempt + 1) left1
          (r.1, baseDelay * 2 ^ (attempt - 1) :: r.2)

/-- `withRetry(fn, {maxAttempts, baseDelay})` of the orchestrator.
`maxAttempts = 0` mirrors the degenerate JS behaviour of throwing the
undefined `lastError` without calling `fn`. -/
def withRetry {α : Type} (op : Nat → Except String α) (maxAttempts : Nat)
    (baseDelay : ℚ) : Except String α × List ℚ :=
  match maxAttempts with
  | 0 => (.error (""), [])
  | m + 1 => withRetryAux op baseDelay 1 m

/-- Issue object as returned by a detection pass of the external engine. -/
structure Issue where
  file : String
  line : Nat
  severity : String
  itype : String
  message : String
  autoFixable : Option Bool
  deriving DecidableEq, Repr

/-- Result of a detection pass (`executeClaudeReview`): parsed issues,
the reported `totalIssues`, and the pass cost (`_cost || 0`). -/
structure Detection where
  issues : List Issue
  totalIssues : Nat
  cost : ℚ
  deriving DecidableEq, Repr

/-- Result of a fix call (`executeClaudeFix`): the `fixed` flag and the
call cost (`_cost || 0`). -/
structure FixR where
  fixed : Bool
  cost : ℚ
  deriving DecidableEq, Repr

/-- The file system: path to content. -/
def FS : Type := String → String

/-- The external reviewer (Claude CLI) together with the file-system
faults the orchestrator handles: `detect` sees the current file system
and a file list; `fix` may rewrite the file system and report a result —
when the fix call throws, the error carries the (possibly partially
mutated) file system at throw time; `backupOk` tells whether
`fs.copyFileSync` succeeds when backing up a file (`backupFile` returns
null on failure). -/
structure Reviewer where
  detect : FS → List String → Except String Detection
  fix : FS → String → List Issue → Except (String × FS) (FixR × FS)
  backupOk : String → Bool

/-- `countAutoFixable(issues)`: explicit `autoFixable` flag if present,
else membership of the issue type in `CONFIG.autoFix.safePatterns`. -/
def countAutoFixable (safePatterns : List String) (issues : List Issue) : Nat :=
  (issues.filter (fun i =>
    match i.autoFixable with
    | some b => b
    | none => safePatterns.contains i.itype)).length

/-- JS `String.prototype.endsWith`. -/
def strEndsWith (s post : String) : Bool :=
  charsHavePrefix post.data.reverse s.data.reverse

/-- JS `s.replace(/\\/g, '/')`: every backslash becomes a forward slash
(single-character pattern, so a character map). -/
def slashToFwd (s : String) : String :=
  String.mk (s.data.map (fun c => if c == '\\' then '/' else c))

/-- The file-path comparison used by `getAutoFixableForFile`. -/
def fileMatches (a b : String) : Bool :=
  a == b || strEndsWith a b || strEndsWith b a ||
  slashToFwd a == slashToFwd b

/-- `getAutoFixableForFile(issues, file)`: the auto-fixable issues (same
rule as `countAutoFixable`) whose file matches `file`. -/
def getAutoFixableForFile (safePatterns : List String) (issues : List Issue)
    (file : String) : List Issue :=
  issues.filter (fun i =>
    fileMatches i.file file &&
    (match i.autoFixable with
     | some b => b
     | none => safePatterns.contains i.itype))

/-- `CONFIG.autoFix.safePatterns` default value. -/
def defaultSafePatterns : List String :=
  ["hardcoded-localhost", "console-log", "debugger-statement"]

/-- Result object of `verifyFix`. -/
structure VerifyOut where
  file : String
  verified : Bool
  autoFixableRemaining : Nat
  remainingIssues : Nat
  errMsg : Option String
  deriving DecidableEq, Repr

/-- `verifyFix(file)` of the orchestrator: re-run detection on the single
file; the remaining auto-fixable count uses only the truthiness of the
explicit `autoFixable` field (`i.autoFixable`, no safe-pattern fallback);
any detection error yields `verified: false`. -/
def verifyFix (R : Reviewer) (fs : FS) (file : String) : VerifyOut :=
  match R.detect fs [file] with
  | .ok res =>
    let rem := (res.issues.filter (fun i => i.autoFixable == some true)).length
    { file := file, verified := rem == 0, autoFixableRemaining := rem,
      remainingIssues := res.totalIssues, errMsg := none }
  | .error e =>
    { file := file, verified := false, autoFixableRemaining := 0,
      remainingIssues := 0, errMsg := some e }

/-- Orchestrator-side `ralphState` (module global of the main script). -/
structure RalphRunState where
  cycle : Nat
  totalCost : ℚ
  totalFixed : Nat
  totalIssuesFound : Nat
  stopped : Bool
  deriving DecidableEq, Repr

/-- The initial orchestrator `ralphState`. -/
def initialRalphRunState : RalphRunState :=
  { cycle := 0, totalCost := 0, totalFixed := 0, totalIssuesFound := 0,
    stopped := false }

/-- `CONFIG.ralph` and `CONFIG.autoFix` fields the core loop reads. -/
structure RalphConfig where
  maxCycles : Nat
  budgetWarning : ℚ
  budgetHard : ℚ
  backupFiles : Bool
  verifyAfterFix : Bool
  safePatterns : List String
  deriving DecidableEq, Repr

/-- Calls made to the external reviewer, for tracing. -/
inductive RCall where
  | detect (files : List String)
  | fix (file : String) (issues : List Issue)
  deriving DecidableEq, Repr

/-- `fs.copyFileSync(backupPath, originalPath)` of `restoreFromBackup`,
applied when a backup snapshot exists. -/
def restoreIf (backup : Option String) (file : String) (fs : FS) : FS :=
  match backup with
  | some b => fun f => if f = file then b else fs f
  | none => fs

/-- Result of processing one file inside PASS 2 of `runRalphCycle`:
the updated orchestrator state and file system, the dashboard events
emitted, the reviewer calls made, the number of issues counted as fixed,
the successive values of `ralphState.totalCost` after each mutation, and
the backup snapshot still held at the end (always discarded). -/
structure FixStep where
  st : RalphRunState
  fs : FS
  events : List DashEvent
  calls : List RCall
  fixedAdd : Nat
  costLog : List ℚ
  backupLeft : Option String

/-- The per-file body of the PASS 2 loop of `runRalphCycle`: emit
`fix_started`, back the file up (skip the file if the backup fails),
call the fix through the retry wrapper, then verify / rollback / commit;
any fix-call error restores from the backup (when one exists) and emits
a failed `fix_complete`. -/
def fixOneFile (backupFiles verifyAfterFix : Bool) (R : Reviewer)
    (file : String) (fileIssues : List Issue) (st : RalphRunState)
    (fs : FS) : FixStep :=
  let ids := fileIssues.map (fun i => i.file ++ ":" ++ toString i.line)
  let ev0 := [DashEvent.fix_started file (some ids)]
  if backupFiles && !(R.backupOk file) then
    { st := st, fs := fs, events := ev0, calls := [], fixedAdd := 0,
      costLog := [], backupLeft := none }
  else
    let backup : Option String := if backupFiles then some (fs file) else none
    match R.fix fs file fileIssues with
    | .error pr =>
      { st := st, fs := restoreIf backup file pr.2,
        events := ev0 ++ [DashEvent.fix_complete (some []) (some ids)],
        calls := [RCall.fix file fileIssues], fixedAdd := 0, costLog := [],
        backupLeft := none }
    | .ok (fr, fs1) =>
      let st1 := { st with totalCost := st.totalCost + fr.cost }
      if fr.fixed then
        if verifyAfterFix then
          let v := verifyFix R fs1 file
          let st2 := { st1 with totalCost := st1.totalCost + (0.02 : ℚ) }
          if v.verified then
            { st := { st2 with totalFixed := st2.totalFixed + fileIssues.length },
              fs := fs1,
              events := ev0 ++ [DashEvent.verification_result file true false,
                                DashEvent.fix_complete (some ids) (some [])],
              calls := [RCall.fix file fileIssues, RCall.detect [file]],
              fixedAdd := fileIssues.length,
              costLog := [st1.totalCost, st2.totalCost], backupLeft := none }
          else
            { st := st2, fs := restoreIf backup file fs1,
              events := ev0 ++ [DashEvent.verification_result file false true,
                                DashEvent.fix_complete (some []) (some ids)],
              calls := [RCall.fix file fileIssues, RCall.detect [file]],
              fixedAdd := 0,
              costLog := [st1.totalCost, st2.totalCost], backupLeft := none }
        else
          { st := { st1 with totalFixed := st1.totalFixed + fileIssues.length },
            fs := fs1,
            events := ev0 ++ [DashEvent.fix_complete (some ids) (some [])],
            calls := [RCall.fix file fileIssues], fixedAdd := fileIssues.length,
            costLog := [st1.totalCost], backupLeft := none }
      else
        { st := st1, fs := fs1,
          events := ev0 ++ [DashEvent.fix_complete (some []) (some ids)],
          calls := [RCall.fix file fileIssues], fixedAdd := 0,
          costLog := [st1.totalCost], backupLeft := none }

/-- Accumulated output of the PASS 2 loop over the cycle's file set. -/
structure LoopOut where
  st : RalphRunState
  fs : FS
  events : List DashEvent
  calls : List RCall
  fixedCount : Nat
  costLog : List ℚ

/-- The PASS 2 loop of `runRalphCycle` over the deduplicated file set:
files with no auto-fixable issues are skipped; a failed backup skips the
file and continues; after a fully processed file the loop stops early
when `ralphState.stopped` is set. -/
def fixFilesLoop (backupFiles verifyAfterFix : Bool) (safePatterns : List String)
    (R : Reviewer) (issues : List Issue) :
    List String → RalphRunState → FS → LoopOut
  | [], st, fs =>
    { st := st, fs := fs, events := [], calls := [], fixedCount := 0, costLog := [] }
  | file :: rest, st, fs =>
    let fileIssues := getAutoFixableForFile safePatterns issues file
    if fileIssues.isEmpty then
      fixFilesLoop backupFiles verifyAfterFix safePatterns R issues rest st fs
    else
      let step := fixOneFile backupFiles verifyAfterFix R file fileIssues st fs
      if backupFiles && !(R.backupOk file) then
        let restOut := fixFilesLoop backupFiles verifyAfterFix safePatterns R issues rest step.st step.fs
        { st := restOut.st, fs := restOut.fs,
          events := step.events ++ restOut.events,
          calls := step.calls ++ restOut.calls,
          fixedCount := step.fixedAdd + restOut.fixedCount,
          costLog := step.costLog ++ restOut.costLog }
      else if step.st.stopped then
        { st := step.st, fs := step.fs, events := step.events,
          calls := step.calls, fixedCount := step.fixedAdd,
          costLog := step.costLog }
      else
        let restOut := fixFilesLoop backupFiles verifyAfterFix safePatterns R issues rest step.st step.fs
        { st := restOut.st, fs := restOut.fs,
          events := step.events ++ restOut.events,
          calls := step.calls ++ restOut.calls,
          fixedCount := step.fixedAdd + restOut.fixedCount,
          costLog := step.costLog ++ restOut.costLog }

/-- JS `new Set(array)` iteration order: first occurrences, in order. -/
def uniqueFiles (l : List String) : List String :=
  l.foldl (fun acc f => if acc.contains f then acc else acc ++ [f]) []

/-- The shapes returned by `runRalphCycle` (`{complete, reason?,
remainingIssues?, error?, fixedThisCycle?, issues?}`). -/
structure CycleResult where
  complete : Bool
  reason : Option String := none
  remainingIssues : Option (List Issue) := none
  error : Option String := none
  fixedThisCycle : Option Nat := none
  issues : Option (List Issue) := none
  deriving DecidableEq, Repr

/-- Full output of one `runRalphCycle` call. -/
structure CycleOut where
  res : CycleResult
  st : RalphRunState
  fs : FS
  events : List DashEvent
  calls : List RCall
  costLog : List ℚ

/-- The issue payload emitted in `detection_complete`
(`autoFixable` resolved to a boolean at emission time). -/
def emittedIssue (safePatterns : List String) (i : Issue) : InIssue :=
  { id := some (i.file ++ ":" ++ toString i.line), file := i.file,
    line := i.line, severity := i.severity, itype := i.itype,
    message := i.message,
    autoFixable := some (match i.autoFixable with
      | some b => b
      | none => safePatterns.contains i.itype) }

/-- `runRalphCycle(files)`: increment the cycle counter, emit
`cycle_started`/`detection_started`, run detection (a failure ends the
cycle with an error result), add the detection cost, emit
`detection_complete` and `cost_update`, return complete when no issue is
auto-fixable, else run the PASS 2 loop and emit `cycle_complete`. -/
def runRalphCycle (cfg : RalphConfig) (R : Reviewer) (files : List String)
    (st : RalphRunState) (fs : FS) : CycleOut :=
  let st0 := { st with cycle := st.cycle + 1 }
  let ev0 := [DashEvent.cycle_started st0.cycle cfg.maxCycles,
              DashEvent.detection_started files.length]
  match R.detect fs files with
  | .error e =>
    { res := { complete := false, error := some e }, st := st0, fs := fs,
      events := ev0, calls := [RCall.detect files], costLog := [] }
  | .ok det =>
    let st1 := { st0 with totalCost := st0.totalCost + det.cost,
                          totalIssuesFound := st0.totalIssuesFound + det.issues.length }
    let af := countAutoFixable cfg.safePatterns det.issues
    let ev1 := ev0 ++
      [DashEvent.detection_complete (some (det.issues.map (emittedIssue cfg.safePatterns))) (some det.cost),
       DashEvent.cost_update (some st1.totalCost)]
    if af = 0 then
      if det.issues.isEmpty then
        { res := { complete := true, reason := some ("No issues found") },
          st := st1, fs := fs, events := ev1, calls := [RCall.detect files],
          costLog := [st1.totalCost] }
      else
        { res := { complete := true, reason := some ("No auto-fixable issues remaining"),
                   remainingIssues := some det.issues },
          st := st1, fs := fs, events := ev1, calls := [RCall.detect files],
          costLog := [st1.totalCost] }
    else
      let fileSet := uniqueFiles (det.issues.map (fun i => i.file))
      let lo := fixFilesLoop cfg.backupFiles cfg.verifyAfterFix cfg.safePatterns R det.issues fileSet st1 fs
      { res := { complete := false, fixedThisCycle := some lo.fixedCount,
                 issues := some det.issues },
        st := lo.st, fs := lo.fs,
        events := ev1 ++ lo.events ++ [DashEvent.cycle_complete (some lo.st.totalCost)],
        calls := RCall.detect files :: lo.calls,
        costLog := st1.totalCost :: lo.costLog }

/-- The user-visible outcome of a run (`notifyRalphComplete` status plus
the reason of the final `ralph_complete` event; `remainingIssues` is the
list reported for manual review on completion). -/
structure RunOutcome where
  status : String
  reason : String
  remainingIssues : List Issue
  deriving DecidableEq, Repr

/-- Full output of `runRalphMode`: outcome, final orchestrator state and
file system, dashboard events emitted, reviewer calls made, the
successive `totalCost` values after each mutation, and the value of
`totalCost` observed at each `runRalphCycle` invocation. -/
structure RunOut where
  outcome : RunOutcome
  st : RalphRunState
  fs : FS
  events : List DashEvent
  calls : List RCall
  costLog : List ℚ
  cycleStartCosts : List ℚ

/-- The stopped epilogue of `runRalphMode` (max cycles, budget break or
user interrupt): status `stopped`; the reason distinguishes only the
`stopped` flag. -/
def mkStopped (st : RalphRunState) (fs : FS) : RunOut :=
  let reason := if st.stopped then "User interrupted" else "Max cycles reached"
  { outcome := { status := "stopped", reason := reason, remainingIssues := [] },
    st := st, fs := fs,
    events := [DashEvent.ralph_complete (some st.totalCost) "stopped" reason],
    calls := [], costLog := [], cycleStartCosts := [] }

/-- The completion epilogue of `runRalphMode` for a cycle result with
`complete: true`. -/
def mkComplete (co : CycleOut) : RunOut :=
  let reason := co.res.reason.getD ("")
  { outcome := { status := "complete", reason := reason,
                 remainingIssues := co.res.remainingIssues.getD [] },
    st := co.st, fs := co.fs,
    events := co.events ++ [DashEvent.ralph_complete (some co.st.totalCost) "complete" reason],
    calls := co.calls, costLog := co.costLog, cycleStartCosts := [] }

/-- The `while (ralphState.cycle < CONFIG.ralph.maxCycles &&
!ralphState.stopped)` loop of `runRalphMode`, written with an explicit
iteration budget: since `runRalphCycle` increments `cycle` by exactly one,
the loop runs at most `maxCycles - cycle` more iterations, and
`ralphLoopAux` is always called with that exact budget (see
`ralphLoopAux_fuel_irrelevant`).  Each iteration: budget hard check
(break), budget warning event, one cycle, completion check, recurse. -/
def ralphLoopAux (cfg : RalphConfig) (R : Reviewer) (files : List String) :
    Nat → RalphRunState → FS → RunOut
  | 0, st, fs => mkStopped st fs
  | fuel + 1, st, fs =>
    if st.cycle < cfg.maxCycles ∧ st.stopped = false then
      if cfg.budgetHard ≤ st.totalCost then mkStopped st fs
      else
        let warnEv :=
          if cfg.budgetWarning ≤ st.totalCost ∧ 1 < st.cycle then
            [DashEvent.budget_warning st.totalCost cfg.budgetWarning]
          else []
        let co := runRalphCycle cfg R files st fs
        if co.res.complete then
          let fin := mkComplete co
          { fin with events := warnEv ++ fin.events,
                     cycleStartCosts := [st.totalCost] }
        else
          let rest := ralphLoopAux cfg R files fuel co.st co.fs
          { outcome := rest.outcome, st := rest.st, fs := rest.fs,
            events := warnEv ++ co.events ++ rest.events,
            calls := co.calls ++ rest.calls,
            costLog := co.costLog ++ rest.costLog,
            cycleStartCosts := st.totalCost :: rest.cycleStartCosts }
    else mkStopped st fs

/-- The main loop of `runRalphMode`, entered with the exact iteration
budget. -/
def ralphLoop (cfg : RalphConfig) (R : Reviewer) (files : List String)
    (st : RalphRunState) (fs : FS) : RunOut :=
  ralphLoopAux cfg R files (cfg.maxCycles - st.cycle) st fs

/-- `runRalphMode()`: return early with no events when there is no file
to process, else emit `ralph_started` and run the main loop from the
initial orchestrator state. -/
def runRalphMode (cfg : RalphConfig) (R : Reviewer) (files : List String)
    (fs : FS) : RunOut :=
  if files.isEmpty then
    { outcome := { status := "no_files", reason := "", remainingIssues := [] },
      st := initialRalphRunState, fs := fs, events := [], calls := [],
      costLog := [], cycleStartCosts := [] }
  else
    let out := ralphLoop cfg R files initialRalphRunState fs
    { out with events :=
        DashEvent.ralph_started (some cfg.maxCycles) (some cfg.budgetHard) :: out.events }

/-- Number of detection calls in a trace. -/
def countDetectCalls (calls : List RCall) : Nat :=
  (calls.filter (fun c => match c with | .detect _ => true | .fix _ _ => false)).length

/-- The C1 invariant: no issue id is simultaneously in `completed` and a
key of the `issues` map. -/
def dashDisjoint (s : RalphDashState) : Prop :=
  ∀ id, id ∈ s.completed → id ∉ s.issues.map Prod.fst

/-- How the reducer transforms `totalCost`, as a function of the current
value and the event alone (see `updateRalphState_totalCost`). -/
def dstep (c : ℚ) (e : DashEvent) : ℚ :=
  match e with
  | .ralph_started _ _ => 0
  | .detection_complete _ cost =>
    (match cost with
     | some k => if k = 0 then c else c + k
     | none => c)
  | .cost_update t => jsOrQ t c
  | .cycle_complete k => jsOrQ k c
  | .ralph_complete t _ _ => jsOrQ t c
  | _ => c

/-- The successive values of the dashboard's `totalCost` while folding an
event list through the reducer (including the starting value). -/
def dashCostTrace (d : RalphDashState) (es : List DashEvent) : List ℚ :=
  (es.scanl (fun s e => updateRalphState e s) d).map (fun s => s.totalCost)

/-- The external engine reports non-negative dollar costs. -/
def ReviewerNonneg (R : Reviewer) : Prop :=
  (∀ fs files det, R.detect fs files = .ok det → 0 ≤ det.cost) ∧
  (∀ fs file issues fr fs2, R.fix fs file issues = .ok (fr, fs2) → 0 ≤ fr.cost)

/-- `log` is a ≤-chain of cost values leading from `c0` to `cfin`. -/
def CostLogOK (c0 : ℚ) : List ℚ → ℚ → Prop
  | [], cfin => cfin = c0
  | x :: l, cfin => c0 ≤ x ∧ CostLogOK x l cfin

/-- Folding the events through the reducer moves the dashboard's
`totalCost` along a ≤-chain from `c` to `cfin` (each step is `dstep`). -/
def dashChainOK (c : ℚ) : List DashEvent → ℚ → Prop
  | [], cfin => cfin = c
  | e :: es, cfin => c ≤ dstep c e ∧ dashChainOK (dstep c e) es cfin

/-- The empty file system used by the concrete scenarios. -/
def fsEmpty : FS := fun _ => ""

/-- Default-like configuration used by the concrete scenarios
(`maxCycles` 3 as in the bounded-looping scenario). -/
def scenarioCfg : RalphConfig :=
  { maxCycles := 3, budgetWarning := 10, budgetHard := 20,
    backupFiles := true, verifyAfterFix := true,
    safePatterns := defaultSafePatterns }

/-- The issue of the bounded-looping scenario: one auto-fixable issue on
`a.ts`, never resolved. -/
def c8Issue : Issue :=
  { file := "a.ts", line := 1, severity := "high", itype := "bug",
    message := "m", autoFixable := some true }

/-- The reviewer of the bounded-looping scenario: detection always
reports `c8Issue` at zero cost; fixes report `fixed: false` at zero cost
and leave the file system unchanged. -/
def c8Reviewer : Reviewer :=
  { detect := fun _ _ => .ok { issues := [c8Issue], totalIssues := 1, cost := 0 },
    fix := fun g _ _ => .ok ({ fixed := false, cost := 0 }, g),
    backupOk := fun _ => true }

/-- The issue of the completion scenario: one critical `api-key` issue
with an explicit `autoFixable: false`. -/
def c7Issue : Issue :=
  { file := "a.ts", line := 10, severity := "critical", itype := "api-key",
    message := "hardcoded API key", autoFixable := some false }

/-- The reviewer of the completion scenario. -/
def c7Reviewer : Reviewer :=
  { detect := fun _ _ => .ok { issues := [c7Issue], totalIssues := 1, cost := 0 },
    fix := fun g _ _ => .ok ({ fixed := false, cost := 0 }, g),
    backupOk := fun _ => true }

/-- A remaining issue after a fix with no explicit `autoFixable` flag but
a safe-pattern type: `countAutoFixable` counts it, `verifyFix` does not. -/
def c4RemIssue : Issue :=
  { file := "a.ts", line := 5, severity := "medium", itype := "console-log",
    message := "console.log left behind", autoFixable := none }

/-- Reviewer whose post-fix detection reports exactly `c4RemIssue`. -/
def c4Reviewer : Reviewer :=
  { detect := fun _ _ => .ok { issues := [c4RemIssue], totalIssues := 1, cost := 0 },
    fix := fun g _ _ => .ok ({ fixed := true, cost := 0 }, g),
    backupOk := fun _ => true }

/-- Reviewer whose fix call always throws (for the error-isolation
witness). -/
def c5Reviewer : Reviewer :=
  { detect := fun _ _ => .ok { issues := [c8Issue], totalIssues := 1, cost := 0 },
    fix := fun g f _ => .error (("Claude fix crashed"),
      fun x => if x = f then ("HALF-APPLIED GARBAGE") else g x),
    backupOk := fun _ => true }

/-- A concrete outstanding issue for the late-subscriber witness. -/
def c9DIssue : DIssue :=
  { id := "a.ts:1", file := "a.ts", line := 1, severity := "high",
    itype := "bug", message := "m", autoFixable := some true,
    status := "detected", progress := none }

/-- A concrete mid-run dashboard state (one outstanding issue). -/
def c9Dash : RalphDashState :=
  { initialRalphDashState with started := true, issues := [("a.ts:1", c9DIssue)] }

/-- A concrete mid-run server state. -/
def c9Srv : SrvState :=
  { dash := c9Dash, clients := [], isRunning := true }

/-- A concrete subscribing observer. -/
def c9Client : DashClient := { cid := 7, isOpen := true, sendFails := false }

/-- A client whose `send` succeeds. -/
def c10GoodClient : DashClient := { cid := 1, isOpen := true, sendFails := false }

/-- A client whose `send` throws. -/
def c10BadClient : DashClient := { cid := 2, isOpen := true, sendFails := true }

/-- A running server with one good and one failing client. -/
def c10Srv : SrvState :=
  { dash := initialRalphDashState,
    clients := [c10GoodClient, c10BadClient], isRunning := true }

/-- Reviewer whose fix rewrites the file but whose post-fix detection
still reports an explicitly auto-fixable issue, forcing a rollback. -/
def c4RollbackReviewer : Reviewer :=
  { detect := fun _ _ => .ok { issues := [c8Issue], totalIssues := 1, cost := 0 },
    fix := fun g f _ => .ok ({ fixed := true, cost := 0 },
      fun x => if x = f then ("BROKEN REWRITE") else g x),
    backupOk := fun _ => true }

/-! ### Theorems -/

theorem foldl_preserves {σ α : Type} {P : σ → Prop} {f : σ → α → σ}
    (hf : ∀ s a, P s → P (f s a)) :
    ∀ (l : List α) (s : σ), P s → P (l.foldl f s) := by
  intro l
  induction l with
  | nil => exact fun s hs => hs
  | cons a t ih => exact fun s hs => ih _ (hf _ _ hs)

theorem mem_addSet {l : List String} {a x : String} :
    x ∈ addSet l a ↔ x ∈ l ∨ x = a := by
  unfold addSet
  split
  · next h =>
    constructor
    · exact fun hx => Or.inl hx
    · rintro (hx | rfl)
      · exact hx
      · simpa using h
  · simp

theorem mem_map_fst_msetD {m : List (String × DIssue)} {k x : String}
    {v : DIssue} (h : x ∈ (msetD m k v).map Prod.fst) :
    x ∈ m.map Prod.fst ∨ x = k := by
  unfold msetD at h
  split at h
  · rcases List.mem_map.mp h with ⟨q, hq, rfl⟩
    rcases List.mem_map.mp hq with ⟨p, hp, rfl⟩
    by_cases hk : p.1 = k
    · right
      simp [hk]
    · left
      refine List.mem_map.mpr ⟨p, hp, ?_⟩
      simp [hk]
  · rw [List.map_append] at h
    rcases List.mem_append.mp h with h1 | h1
    · exact Or.inl h1
    · right
      simpa using h1

theorem map_fst_condUpdate (m : List (String × DIssue))
    (c : String × DIssue → Bool) (f : String × DIssue → DIssue) :
    (m.map (fun p => if c p then (p.1, f p) else p)).map Prod.fst =
      m.map Prod.fst := by
  induction m with
  | nil => rfl
  | cons p t ih => by_cases h : c p <;> simp [h, ih]

theorem detStep_disjoint (s : RalphDashState) (i : InIssue)
    (hs : dashDisjoint s) : dashDisjoint (detStep s i) := by
  simp only [detStep]
  split
  · exact hs
  · next hcon =>
    intro x hx hmem
    rcases mem_map_fst_msetD hmem with hin | rfl
    · exact hs x hx hin
    · exact hcon (by simpa using hx)

theorem fixDoneStep_disjoint (s : RalphDashState) (id : String)
    (hs : dashDisjoint s) : dashDisjoint (fixDoneStep s id) := by
  intro x hx hmem
  simp only [fixDoneStep] at hx hmem
  rcases List.mem_map.mp hmem with ⟨p, hp, rfl⟩
  rcases mem_addSet.mp hx with hxc | hxid
  · exact hs _ hxc (List.mem_map.mpr ⟨p, List.mem_of_mem_filter hp, rfl⟩)
  · have hne := List.of_mem_filter hp
    simp only [Bool.not_eq_true', beq_eq_false_iff_ne, ne_eq] at hne
    exact hne hxid

theorem fixFailStep_disjoint (s : RalphDashState) (id : String)
    (hs : dashDisjoint s) : dashDisjoint (fixFailStep s id) := by
  intro x hx hmem
  simp only [fixFailStep] at hx hmem
  rw [map_fst_condUpdate s.issues (fun p => p.1 == id)
    (fun p => { p.2 with status := "failed" })] at hmem
  exact hs x hx hmem

theorem startFixStep_disjoint (s : RalphDashState) (id : String)
    (hs : dashDisjoint s) : dashDisjoint (startFixStep s id) := by
  intro x hx hmem
  simp only [startFixStep] at hx hmem
  rw [map_fst_condUpdate s.issues (fun p => p.1 == id)
    (fun p => { p.2 with status := "fixing", progress := some 0 })] at hmem
  exact hs x hx hmem

theorem updateRalphState_disjoint (e : DashEvent) (s : RalphDashState)
    (hs : dashDisjoint s) : dashDisjoint (updateRalphState e s) := by
  cases e with
  | ralph_started m b =>
    intro id h hm
    simp [updateRalphState] at h
  | cycle_started c m => exact hs
  | detection_started n => exact hs
  | detection_complete issues cost =>
    have h1 : dashDisjoint { s with issues := [], fixing := [] } := by
      intro id hid hm
      simp at hm
    have h2 : dashDisjoint (match issues with
        | some l => l.foldl detStep { s with issues := [], fixing := [] }
        | none => { s with issues := [], fixing := [] }) := by
      cases issues with
      | none => exact h1
      | some l => exact foldl_preserves detStep_disjoint l _ h1
    simp only [updateRalphState]
    cases cost with
    | none => exact h2
    | some c =>
      by_cases hc : c = 0
      · simpa [hc] using h2
      · simp only [if_neg hc]
        exact h2
  | fix_started f issueIds =>
    simp only [updateRalphState]
    cases issueIds with
    | none => exact hs
    | some ids => exact foldl_preserves startFixStep_disjoint ids s hs
  | fix_progress f pr =>
    intro x hx hmem
    simp only [updateRalphState] at hx hmem
    rw [map_fst_condUpdate s.issues
      (fun p => p.2.file == f && s.fixing.contains p.1)
      (fun p => { p.2 with progress := some pr })] at hmem
    exact hs x hx hmem
  | fix_complete fixed failed =>
    have h1 : dashDisjoint (match fixed with
        | some l => l.foldl fixDoneStep s
        | none => s) := by
      cases fixed with
      | none => exact hs
      | some l => exact foldl_preserves fixDoneStep_disjoint l s hs
    simp only [updateRalphState]
    cases failed with
    | none => exact h1
    | some l => exact foldl_preserves fixFailStep_disjoint l _ h1
  | cost_update t => exact hs
  | budget_warning a b => exact hs
  | verification_result f v r => exact hs
  | cycle_complete c => exact hs
  | ralph_complete t st2 r => exact hs
  | log_entry m lv => exact hs

/-- C1: for every sequence of events applied through the dashboard
reducer `updateRalphState`, after each event application the set of
completed issue ids and the key set of the outstanding-issues map are
disjoint; in particular every single reducer step (`detection_complete`
skipping already-completed ids, `fix_complete` deleting a fixed id from
`issues` while adding it to `completed`) preserves the disjointness. -/
theorem claim_C1 :
    (∀ es : List DashEvent, dashDisjoint (applyEvents initialRalphDashState es)) ∧
    (∀ (s : RalphDashState) (e : DashEvent),
        dashDisjoint s → dashDisjoint (updateRalphState e s)) := by
  constructor
  · intro es
    have hinit : dashDisjoint initialRalphDashState := by
      intro id h hm
      simp [initialRalphDashState] at h
    exact foldl_preserves (fun st e h => updateRalphState_disjoint e st h) es
      initialRalphDashState hinit
  · exact fun s e hs => updateRalphState_disjoint e s hs

/-- C1 witness: the preservation half applied to a concrete state holding
one completed id and one distinct outstanding issue, under a concrete
`fix_complete` event. -/
theorem claim_C1_witness :
    dashDisjoint (updateRalphState (DashEvent.fix_complete (some ["a.ts:1"]) none)
      { initialRalphDashState with
          completed := ["x.ts:2"],
          issues := [("a.ts:1",
            { id := "a.ts:1", file := "a.ts", line := 1, severity := "high",
              itype := "bug", message := "m", autoFixable := some true,
              status := "detected", progress := none })] }) :=
  claim_C1.2 _ _ (by
    intro id h hm
    simp only [List.mem_singleton] at h
    subst h
    simp at hm)

theorem emitEvent_dash (e : DashEvent) (s : SrvState) :
    (emitEvent e s).1.dash = updateRalphState e s.dash := by
  simp only [emitEvent]
  split <;> rfl

theorem runOps_dash (ops : List SrvOp) :
    ∀ s : SrvState, (runOps s ops).1.dash = applyEvents s.dash (eventsOf ops) := by
  induction ops with
  | nil => intro s; rfl
  | cons op rest ih =>
    intro s
    cases op with
    | emit e =>
      show (runOps (emitEvent e s).1 rest).1.dash = _
      rw [ih, emitEvent_dash]
      rfl
    | connect c =>
      show (runOps (onConnect s c).1 rest).1.dash = _
      rw [ih]
      rfl
    | disconnect cid =>
      show (runOps _ rest).1.dash = _
      rw [ih]
      rfl

/-- C10: dashboard state evolution is a pure fold of the reducer over the
emitted event subsequence, independent of connected observers and of
whether the server is running (`emitEvent` applies `updateRalphState`
before the `isRunning` check); when the server is running, a send failure
removes exactly the failing open clients and the event is still delivered
to every other open client. -/
theorem claim_C10 :
    (∀ (s : SrvState) (ops : List SrvOp),
        (runOps s ops).1.dash = applyEvents s.dash (eventsOf ops)) ∧
    (∀ (d : RalphDashState) (cl1 cl2 : List DashClient) (r1 r2 : Bool)
        (ops : List SrvOp),
        getSerializableState
          (runOps { dash := d, clients := cl1, isRunning := r1 } ops).1.dash =
        getSerializableState
          (runOps { dash := d, clients := cl2, isRunning := r2 } ops).1.dash) ∧
    (∀ (s : SrvState) (e : DashEvent),
        (emitEvent e s).1.dash = updateRalphState e s.dash) ∧
    (∀ (s : SrvState) (e : DashEvent), s.isRunning = true →
        (emitEvent e s).1.clients =
          s.clients.filter (fun c => !(c.isOpen && c.sendFails)) ∧
        (emitEvent e s).2 =
          (s.clients.filter (fun c => c.isOpen && !c.sendFails)).map
            (fun c => (c.cid, Msg.event e))) := by
  refine ⟨?_, ?_, ?_, ?_⟩
  · exact fun s ops => runOps_dash ops s
  · intro d cl1 cl2 r1 r2 ops
    rw [runOps_dash, runOps_dash]
  · exact fun s e => emitEvent_dash e s
  · intro s e h
    simp [emitEvent, h]

/-- C10 witness: emitting a concrete event on a running server with one
good and one failing client removes only the failing client and delivers
the event to the good one. -/
theorem claim_C10_witness :
    (emitEvent (DashEvent.log_entry ("hi") none) c10Srv).1.clients = [c10GoodClient] ∧
    (emitEvent (DashEvent.log_entry ("hi") none) c10Srv).2 =
      [(1, Msg.event (DashEvent.log_entry ("hi") none))] := by
  have h := claim_C10.2.2.2 c10Srv (DashEvent.log_entry ("hi") none) rfl
  refine ⟨?_, ?_⟩
  · rw [h.1]
    decide
  · rw [h.2]
    decide

/-- C9: an observer connecting while a run is in progress
(`ralphState.started`) receives exactly the `connected` acknowledgment
followed by exactly one `state_sync` message, addressed to that observer
only, whose data is the full `getSerializableState` snapshot and whose
outstanding-issues count equals the size of the authoritative issues map;
no event replay is sent; with no run in progress only the acknowledgment
is sent. -/
theorem claim_C9 (s : SrvState) (c : DashClient) :
    (s.dash.started = true →
      (onConnect s c).2 =
        [(c.cid, Msg.connected),
         (c.cid, Msg.state_sync (getSerializableState s.dash))] ∧
      (getSerializableState s.dash).issues.length = s.dash.issues.length) ∧
    (s.dash.started = false →
      (onConnect s c).2 = [(c.cid, Msg.connected)]) ∧
    (∀ p ∈ (onConnect s c).2, p.1 = c.cid) ∧
    (∀ p ∈ (onConnect s c).2, ∀ e, p.2 ≠ Msg.event e) := by
  refine ⟨?_, ?_, ?_, ?_⟩
  · intro h
    constructor
    · simp [onConnect, h]
    · simp [getSerializableState]
  · intro h
    simp [onConnect, h]
  · intro p hp
    simp only [onConnect, List.mem_cons] at hp
    rcases hp with rfl | hp
    · rfl
    · by_cases h : s.dash.started
      · simp only [if_pos h, List.mem_singleton] at hp
        subst hp
        rfl
      · simp [if_neg h] at hp
  · intro p hp e
    simp only [onConnect, List.mem_cons] at hp
    rcases hp with rfl | hp
    · simp
    · by_cases h : s.dash.started
      · simp only [if_pos h, List.mem_singleton] at hp
        subst hp
        simp
      · simp [if_neg h] at hp

/-- C9 witness: a concrete observer subscribing to a concrete mid-run
server state receives the acknowledgment and exactly one snapshot whose
issue count matches the single outstanding issue. -/
theorem claim_C9_witness :
    (onConnect c9Srv c9Client).2 =
      [(7, Msg.connected),
       (7, Msg.state_sync (getSerializableState c9Srv.dash))] ∧
    (getSerializableState c9Srv.dash).issues.length = c9Srv.dash.issues.length := by
  have h := (claim_C9 c9Srv c9Client).1 rfl
  exact ⟨h.1, h.2⟩

theorem withRetryAux_eq {α : Type} (op : Nat → Except String α) (base : ℚ)
    (attempt left : Nat) :
    withRetryAux op base attempt left =
      match op attempt with
      | .ok v => (.ok v, [])
      | .error e =>
        if isNonRetryableError e then (.error e, [])
        else
          match left with
          | 0 => (.error e, [])
          | left1 + 1 =>
            let r := withRetryAux op base (attempt + 1) left1
            (r.1, base * 2 ^ (attempt - 1) :: r.2) := by
  rw [withRetryAux]

theorem delay_congr (base : ℚ) {i j : Nat} (h : i = j) :
    base * 2 ^ i = base * 2 ^ j := by rw [h]

theorem withRetryAux_fatal {α : Type} (op : Nat → Except String α) (base : ℚ) :
    ∀ (m a left : Nat) (e : String), 1 ≤ a →
      (∀ i, a ≤ i → i < a + m → ∃ e2, op i = .error e2 ∧ isNonRetryableError e2 = false) →
      op (a + m) = .error e → isNonRetryableError e = true → m ≤ left →
      withRetryAux op base a left =
        (.error e, (List.range m).map (fun k => base * 2 ^ (a - 1 + k))) := by
  intro m
  induction m with
  | zero =>
    intro a left e ha htrans hop hfatal hle
    rw [Nat.add_zero] at hop
    rw [withRetryAux_eq, hop]
    simp [hfatal]
  | succ m ih =>
    intro a left e ha htrans hop hfatal hle
    obtain ⟨e0, he0, he0t⟩ := htrans a (le_refl a) (by omega)
    obtain ⟨left1, rfl⟩ : ∃ left1, left = left1 + 1 := ⟨left - 1, by omega⟩
    rw [withRetryAux_eq, he0]
    simp only [he0t, Bool.false_eq_true, if_false]
    rw [ih (a + 1) left1 e (by omega)
      (fun i h1 h2 => htrans i (by omega) (by omega))
      (by rw [show a + 1 + m = a + (m + 1) by omega]; exact hop)
      hfatal (by omega)]
    refine congrArg (Prod.mk (Except.error e)) ?_
    rw [List.range_succ_eq_map, List.map_cons, List.map_map]
    refine congrArg₂ List.cons (delay_congr base (by omega)) ?_
    apply List.map_congr_left
    intro k hk
    exact delay_congr base (by omega)

theorem withRetryAux_transient {α : Type} (op : Nat → Except String α) (base : ℚ) :
    ∀ (left a : Nat), 1 ≤ a →
      (∀ i, a ≤ i → i ≤ a + left → ∃ e2, op i = .error e2 ∧ isNonRetryableError e2 = false) →
      ∃ e, op (a + left) = .error e ∧
        withRetryAux op base a left =
          (.error e, (List.range left).map (fun k => base * 2 ^ (a - 1 + k))) := by
  intro left
  induction left with
  | zero =>
    intro a ha htrans
    obtain ⟨e, he, het⟩ := htrans a (le_refl a) (by omega)
    refine ⟨e, by simpa using he, ?_⟩
    rw [withRetryAux_eq, he]
    simp [het]
  | succ left ih =>
    intro a ha htrans
    obtain ⟨e0, he0, he0t⟩ := htrans a (le_refl a) (by omega)
    obtain ⟨e, he, haux⟩ := ih (a + 1) (by omega)
      (fun i h1 h2 => htrans i (by omega) (by omega))
    refine ⟨e, by rw [show a + (left + 1) = a + 1 + left by omega]; exact he, ?_⟩
    rw [withRetryAux_eq, he0]
    simp only [he0t, Bool.false_eq_true, if_false]
    rw [haux]
    refine congrArg (Prod.mk (Except.error e)) ?_
    rw [List.range_succ_eq_map, List.map_cons, List.map_map]
    refine congrArg₂ List.cons (delay_congr base (by omega)) ?_
    apply List.map_congr_left
    intro k hk
    exact delay_congr base (by omega)

/-- C6: `withRetry` executes the operation; an error classified fatal by
`isNonRetryableError` (not-found / permission-denied / invalid /
authentication / 401 / 403 signatures) propagates immediately with no
further attempts, while transient errors are retried after delay
`baseDelay * 2^(attempt-1)`, up to `maxAttempts` total attempts, after
which the last error propagates. -/
theorem claim_C6 {α : Type} (op : Nat → Except String α) (maxAttempts : Nat)
    (baseDelay : ℚ) (hmax : 1 ≤ maxAttempts) :
    (∀ j e, 1 ≤ j → j ≤ maxAttempts →
      (∀ i, 1 ≤ i → i < j → ∃ e2, op i = .error e2 ∧ isNonRetryableError e2 = false) →
      op j = .error e → isNonRetryableError e = true →
      withRetry op maxAttempts baseDelay =
        (.error e, (List.range (j - 1)).map (fun k => baseDelay * 2 ^ k))) ∧
    ((∀ i, 1 ≤ i → i ≤ maxAttempts →
        ∃ e2, op i = .error e2 ∧ isNonRetryableError e2 = false) →
      ∃ e, op maxAttempts = .error e ∧
        withRetry op maxAttempts baseDelay =
          (.error e, (List.range (maxAttempts - 1)).map (fun k => baseDelay * 2 ^ k))) := by
  obtain ⟨m, rfl⟩ : ∃ m, maxAttempts = m + 1 := ⟨maxAttempts - 1, by omega⟩
  constructor
  · intro j e hj1 hj2 htrans hop hfatal
    show withRetryAux op baseDelay 1 m = _
    rw [withRetryAux_fatal op baseDelay (j - 1) 1 m e (le_refl 1)
      (fun i h1 h2 => htrans i h1 (by omega))
      (by rw [show 1 + (j - 1) = j by omega]; exact hop)
      hfatal (by omega)]
    refine congrArg (Prod.mk (Except.error e)) ?_
    apply List.map_congr_left
    intro k hk
    exact delay_congr baseDelay (by omega)
  · intro htrans
    obtain ⟨e, he, haux⟩ := withRetryAux_transient op baseDelay m 1 (le_refl 1)
      (fun i h1 h2 => htrans i h1 (by omega))
    refine ⟨e, by rw [show m + 1 = 1 + m by omega]; exact he, ?_⟩
    show withRetryAux op baseDelay 1 m = _
    rw [haux]
    refine congrArg (Prod.mk (Except.error e)) ?_
    apply List.map_congr_left
    intro k hk
    exact delay_congr baseDelay (by omega)

/-- C6 witness: a run where attempt 1 fails transiently and attempt 2
fails fatally stops at attempt 2 after one backoff delay; a run of three
transient failures exhausts all three attempts with delays 1s and 2s and
propagates the last error. -/
theorem claim_C6_witness :
    withRetry (fun i => if i = 2 then (.error ("Invalid input") : Except String Nat)
      else .error ("net glitch")) 3 1 =
      (.error ("Invalid input"), (List.range 1).map (fun k => (1 : ℚ) * 2 ^ k)) ∧
    (∃ e, (fun _ : Nat => (.error ("timeout") : Except String Nat)) 3 = .error e ∧
      withRetry (fun _ : Nat => (.error ("timeout") : Except String Nat)) 3 1 =
        (.error e, (List.range 2).map (fun k => (1 : ℚ) * 2 ^ k))) := by
  constructor
  · exact (claim_C6 (fun i => if i = 2 then (.error ("Invalid input") : Except String Nat)
      else .error ("net glitch")) 3 1 (by norm_num)).1 2 ("Invalid input")
      (by norm_num) (by norm_num)
      (fun i h1 h2 => by
        have hi : i = 1 := by omega
        subst hi
        exact ⟨"net glitch", rfl, by decide⟩)
      rfl (by decide)
  · exact (claim_C6 (fun _ : Nat => (.error ("timeout") : Except String Nat)) 3 1
      (by norm_num)).2 (fun i h1 h2 => ⟨"timeout", rfl, by decide⟩)

/-- C4 counterexample: after a fix reporting `fixed: true`, the re-run
detection reports one remaining issue with no explicit `autoFixable`
flag whose type is in the safe-pattern set: the claim's cohort count
(`countAutoFixable`, explicit flag if present else safe-pattern
membership) is 1, yet the transaction verifies successfully — so
verification does NOT require the claimed cohort count to be zero. -/
theorem claim_C4_counterexample :
    (verifyFix c4Reviewer fsEmpty ("a.ts")).verified = true ∧
    countAutoFixable defaultSafePatterns [c4RemIssue] = 1 ∧
    (fixOneFile true true c4Reviewer ("a.ts")
        [{ file := "a.ts", line := 3, severity := "medium", itype := "console-log",
           message := "log", autoFixable := some true }]
        initialRalphRunState fsEmpty).events =
      [DashEvent.fix_started ("a.ts") (some ["a.ts:3"]),
       DashEvent.verification_result ("a.ts") true false,
       DashEvent.fix_complete (some ["a.ts:3"]) (some [])] := by
  refine ⟨by decide, by decide, by decide⟩

/-- C4 (amended): when verification is enabled, after a fix call reports
`fixed: true` the transaction re-runs detection scoped to that single
file and succeeds exactly when the count of remaining issues whose
explicit `autoFixable` field is truthy is zero (the safe-pattern
fallback is not applied during verification); on success the backup is
discarded and the fixed file system is kept; on verification failure,
with backups enabled and the snapshot succeeded, the file's content is
restored byte-for-byte to its pre-transaction content. -/
theorem claim_C4_amended (R : Reviewer) (file : String) :
    (∀ (fs1 : FS) (det : Detection), R.detect fs1 [file] = .ok det →
      ((verifyFix R fs1 file).verified = true ↔
        (det.issues.filter (fun i => i.autoFixable == some true)).length = 0)) ∧
    (∀ (fs1 : FS) (e : String), R.detect fs1 [file] = .error e →
      (verifyFix R fs1 file).verified = false) ∧
    (∀ (fileIssues : List Issue) (st : RalphRunState) (fs : FS)
        (fr : FixR) (fs1 : FS),
      R.backupOk file = true →
      R.fix fs file fileIssues = .ok (fr, fs1) →
      fr.fixed = true →
      (fixOneFile true true R file fileIssues st fs).calls =
        [RCall.fix file fileIssues, RCall.detect [file]] ∧
      ((verifyFix R fs1 file).verified = false →
        (fixOneFile true true R file fileIssues st fs).fs file = fs file) ∧
      ((verifyFix R fs1 file).verified = true →
        (fixOneFile true true R file fileIssues st fs).backupLeft = none ∧
        (fixOneFile true true R file fileIssues st fs).fs = fs1)) := by
  refine ⟨?_, ?_, ?_⟩
  · intro fs1 det h
    simp only [verifyFix, h]
    constructor
    · intro hv
      simpa using hv
    · intro hv
      simpa using hv
  · intro fs1 e h
    simp only [verifyFix, h]
  · intro fileIssues st fs fr fs1 hb hfix hfixed
    have hcond : (true && !R.backupOk file) = false := by
      rw [hb]
      rfl
    by_cases hv : (verifyFix R fs1 file).verified = true
    · refine ⟨?_, fun hcontra => absurd hv (by simp [hcontra]), fun _ => ⟨?_, ?_⟩⟩ <;>
        simp only [fixOneFile, hcond, Bool.false_eq_true, if_false, hfix, hfixed,
          if_true, hv]
    · have hv2 : (verifyFix R fs1 file).verified = false := by
        simpa using hv
      refine ⟨?_, fun _ => ?_, fun hcontra => absurd hcontra hv⟩ <;>
        (simp only [fixOneFile, hcond, Bool.false_eq_true, if_false, hfix, hfixed,
          if_true, hv2]
         try simp [restoreIf])

/-- C4 witness: the amended rollback law applied to a concrete failing
verification: the fix rewrites `a.ts`, verification still sees an
explicitly auto-fixable issue, and the transaction restores the file's
original content. -/
theorem claim_C4_witness :
    (fixOneFile true true c4RollbackReviewer ("a.ts") [c8Issue]
        initialRalphRunState fsEmpty).fs ("a.ts") = fsEmpty ("a.ts") := by
  have h := (claim_C4_amended c4RollbackReviewer ("a.ts")).2.2 [c8Issue]
    initialRalphRunState fsEmpty { fixed := true, cost := 0 }
    (fun x => if x = "a.ts" then ("BROKEN REWRITE") else fsEmpty x) rfl rfl rfl
  exact h.2.1 (by decide)

theorem fixOneFile_st_stopped (bF vF : Bool) (R : Reviewer) (file : String)
    (fileIssues : List Issue) (st : RalphRunState) (fs : FS) :
    (fixOneFile bF vF R file fileIssues st fs).st.stopped = st.stopped := by
  unfold fixOneFile
  dsimp only
  repeat' split
  all_goals rfl

theorem fixOneFile_st_cycle (bF vF : Bool) (R : Reviewer) (file : String)
    (fileIssues : List Issue) (st : RalphRunState) (fs : FS) :
    (fixOneFile bF vF R file fileIssues st fs).st.cycle = st.cycle := by
  unfold fixOneFile
  dsimp only
  repeat' split
  all_goals rfl

theorem fixOneFile_started (bF vF : Bool) (R : Reviewer) (file : String)
    (fileIssues : List Issue) (st : RalphRunState) (fs : FS) :
    (fixOneFile bF vF R file fileIssues st fs).events.filterMap
      (fun e => match e with
        | DashEvent.fix_started f _ => some f
        | _ => none) = [file] := by
  unfold fixOneFile
  dsimp only
  repeat' split
  all_goals simp

theorem fixFilesLoop_started (bF vF : Bool) (sp : List String) (R : Reviewer)
    (issues : List Issue) :
    ∀ (files : List String) (st : RalphRunState) (fs : FS),
      st.stopped = false →
      (fixFilesLoop bF vF sp R issues files st fs).events.filterMap
        (fun e => match e with
          | DashEvent.fix_started f _ => some f
          | _ => none) =
      files.filter (fun f => !(getAutoFixableForFile sp issues f).isEmpty) := by
  intro files
  induction files with
  | nil =>
    intro st fs h
    simp [fixFilesLoop]
  | cons f rest ih =>
    intro st fs h
    simp only [fixFilesLoop]
    by_cases hempty : (getAutoFixableForFile sp issues f).isEmpty = true
    · rw [if_pos hempty, ih st fs h, List.filter_cons]
      simp [hempty]
    · have hnot : ((getAutoFixableForFile sp issues f).isEmpty : Bool) = false := by
        simpa using hempty
      rw [if_neg (by simp [hnot])]
      have hstop : (fixOneFile bF vF R f (getAutoFixableForFile sp issues f) st fs).st.stopped = false := by
        rw [fixOneFile_st_stopped]
        exact h
      by_cases hskip : (bF && !R.backupOk f) = true
      · rw [if_pos hskip, List.filterMap_append, fixOneFile_started,
          ih _ _ hstop, List.filter_cons]
        simp [hnot]
      · rw [if_neg hskip, if_neg (by simp [hstop]), List.filterMap_append,
          fixOneFile_started, ih _ _ hstop, List.filter_cons]
        simp [hnot]

/-- C5: a fix-call exception for one file is contained to that file: the
orchestrator state is unchanged, the transaction emits the `fix_started`
event and a failed `fix_complete` (never an error result), the file is
restored from its backup when backups are on, and the per-cycle loop
still reaches every file with auto-fixable issues; a cycle whose
detection succeeded never reports an error, whatever the fix calls do. -/
theorem claim_C5 :
    (∀ (bF vF : Bool) (R : Reviewer) (file : String) (fileIssues : List Issue)
        (st : RalphRunState) (fs : FS) (e : String) (fsErr : FS),
      R.fix fs file fileIssues = .error (e, fsErr) →
      (bF && !R.backupOk file) = false →
      (fixOneFile bF vF R file fileIssues st fs).st = st ∧
      (fixOneFile bF vF R file fileIssues st fs).events =
        [DashEvent.fix_started file
           (some (fileIssues.map (fun i => i.file ++ ":" ++ toString i.line))),
         DashEvent.fix_complete (some [])
           (some (fileIssues.map (fun i => i.file ++ ":" ++ toString i.line)))] ∧
      (bF = true → (fixOneFile bF vF R file fileIssues st fs).fs file = fs file)) ∧
    (∀ (bF vF : Bool) (sp : List String) (R : Reviewer) (issues : List Issue)
        (files : List String) (st : RalphRunState) (fs : FS),
      st.stopped = false →
      (fixFilesLoop bF vF sp R issues files st fs).events.filterMap
        (fun e => match e with
          | DashEvent.fix_started f _ => some f
          | _ => none) =
      files.filter (fun f => !(getAutoFixableForFile sp issues f).isEmpty)) ∧
    (∀ (cfg : RalphConfig) (R : Reviewer) (files : List String)
        (st : RalphRunState) (fs : FS) (det : Detection),
      R.detect fs files = .ok det →
      (runRalphCycle cfg R files st fs).res.error = none) := by
  refine ⟨?_, ?_, ?_⟩
  · intro bF vF R file fileIssues st fs e fsErr hfix hns
    refine ⟨?_, ?_, ?_⟩
    · simp only [fixOneFile, hns, Bool.false_eq_true, if_false, hfix]
    · simp only [fixOneFile, hns, Bool.false_eq_true, if_false, hfix]
      rfl
    · intro hbF
      subst hbF
      simp only [fixOneFile, hns, Bool.false_eq_true, if_false, hfix, if_true]
      simp [restoreIf]
  · exact fun bF vF sp R issues files st fs h =>
      fixFilesLoop_started bF vF sp R issues files st fs h
  · intro cfg R files st fs det h
    simp only [runRalphCycle, h]
    repeat' split
    all_goals rfl

/-- C5 witness: a concrete crashing fix call on `a.ts` leaves the
orchestrator state untouched, emits the failed `fix_complete`, restores
the half-applied file, and the loop over `[a.ts, b.ts]` still visits
every file with auto-fixable issues. -/
theorem claim_C5_witness :
    ((fixOneFile true true c5Reviewer ("a.ts") [c8Issue]
        initialRalphRunState fsEmpty).st = initialRalphRunState ∧
     (fixOneFile true true c5Reviewer ("a.ts") [c8Issue]
        initialRalphRunState fsEmpty).events =
       [DashEvent.fix_started ("a.ts") (some ["a.ts:1"]),
        DashEvent.fix_complete (some []) (some ["a.ts:1"])] ∧
     (fixOneFile true true c5Reviewer ("a.ts") [c8Issue]
        initialRalphRunState fsEmpty).fs ("a.ts") = fsEmpty ("a.ts")) ∧
    (fixFilesLoop true true defaultSafePatterns c5Reviewer [c8Issue]
        ["a.ts", "b.ts"] initialRalphRunState fsEmpty).events.filterMap
      (fun e => match e with
        | DashEvent.fix_started f _ => some f
        | _ => none) =
      (["a.ts", "b.ts"].filter
        (fun f => !(getAutoFixableForFile defaultSafePatterns [c8Issue] f).isEmpty)) := by
  constructor
  · have h := claim_C5.1 true true c5Reviewer ("a.ts") [c8Issue]
      initialRalphRunState fsEmpty ("Claude fix crashed")
      (fun x => if x = "a.ts" then ("HALF-APPLIED GARBAGE") else fsEmpty x) rfl rfl
    exact ⟨h.1, h.2.1, h.2.2 rfl⟩
  · exact claim_C5.2.1 true true defaultSafePatterns c5Reviewer [c8Issue]
      ["a.ts", "b.ts"] initialRalphRunState fsEmpty rfl

theorem fixFilesLoop_st_cycle (bF vF : Bool) (sp : List String) (R : Reviewer)
    (issues : List Issue) :
    ∀ (files : List String) (st : RalphRunState) (fs : FS),
      (fixFilesLoop bF vF sp R issues files st fs).st.cycle = st.cycle := by
  intro files
  induction files with
  | nil => intro st fs; rfl
  | cons f rest ih =>
    intro st fs
    simp only [fixFilesLoop]
    split
    · exact ih st fs
    · split
      · rw [ih, fixOneFile_st_cycle]
      · split
        · exact fixOneFile_st_cycle bF vF R f _ st fs
        · rw [ih, fixOneFile_st_cycle]

theorem fixFilesLoop_st_stopped (bF vF : Bool) (sp : List String) (R : Reviewer)
    (issues : List Issue) :
    ∀ (files : List String) (st : RalphRunState) (fs : FS),
      (fixFilesLoop bF vF sp R issues files st fs).st.stopped = st.stopped := by
  intro files
  induction files with
  | nil => intro st fs; rfl
  | cons f rest ih =>
    intro st fs
    simp only [fixFilesLoop]
    split
    · exact ih st fs
    · split
      · rw [ih, fixOneFile_st_stopped]
      · split
        · exact fixOneFile_st_stopped bF vF R f _ st fs
        · rw [ih, fixOneFile_st_stopped]

theorem runRalphCycle_st_cycle (cfg : RalphConfig) (R : Reviewer)
    (files : List String) (st : RalphRunState) (fs : FS) :
    (runRalphCycle cfg R files st fs).st.cycle = st.cycle + 1 := by
  unfold runRalphCycle
  dsimp only
  split
  · rfl
  · split
    · split
      · rfl
      · rfl
    · rw [fixFilesLoop_st_cycle]

theorem runRalphCycle_st_stopped (cfg : RalphConfig) (R : Reviewer)
    (files : List String) (st : RalphRunState) (fs : FS) :
    (runRalphCycle cfg R files st fs).st.stopped = st.stopped := by
  unfold runRalphCycle
  dsimp only
  split
  · rfl
  · split
    · split
      · rfl
      · rfl
    · rw [fixFilesLoop_st_stopped]

theorem ralphLoopAux_fuel_irrelevant (cfg : RalphConfig) (R : Reviewer)
    (files : List String) :
    ∀ (fuel1 fuel2 : Nat) (st : RalphRunState) (fs : FS),
      cfg.maxCycles - st.cycle ≤ fuel1 → cfg.maxCycles - st.cycle ≤ fuel2 →
      ralphLoopAux cfg R files fuel1 st fs = ralphLoopAux cfg R files fuel2 st fs := by
  intro fuel1
  induction fuel1 with
  | zero =>
    intro fuel2 st fs h1 h2
    have hg : ¬ (st.cycle < cfg.maxCycles ∧ st.stopped = false) := by
      intro hcon
      omega
    cases fuel2 with
    | zero => rfl
    | succ f2 =>
      show mkStopped st fs = _
      simp only [ralphLoopAux]
      rw [if_neg hg]
  | succ f1 ih =>
    intro fuel2 st fs h1 h2
    by_cases hg : (st.cycle < cfg.maxCycles ∧ st.stopped = false)
    · obtain ⟨f2, rfl⟩ : ∃ f2, fuel2 = f2 + 1 := ⟨fuel2 - 1, by omega⟩
      simp only [ralphLoopAux]
      rw [if_pos hg, if_pos hg]
      by_cases hbud : cfg.budgetHard ≤ st.totalCost
      · rw [if_pos hbud, if_pos hbud]
      · rw [if_neg hbud, if_neg hbud]
        by_cases hcomp : (runRalphCycle cfg R files st fs).res.complete = true
        · rw [if_pos hcomp, if_pos hcomp]
        · rw [if_neg hcomp, if_neg hcomp]
          rw [ih f2 (runRalphCycle cfg R files st fs).st
            (runRalphCycle cfg R files st fs).fs
            (by rw [runRalphCycle_st_cycle]; omega)
            (by rw [runRalphCycle_st_cycle]; omega)]
    · cases fuel2 with
      | zero =>
        show _ = mkStopped st fs
        simp only [ralphLoopAux]
        rw [if_neg hg]
      | succ f2 =>
        simp only [ralphLoopAux]
        rw [if_neg hg, if_neg hg]

theorem ralphLoopAux_budget_stop (cfg : RalphConfig) (R : Reviewer)
    (files : List String) (fuel : Nat) (st : RalphRunState) (fs : FS)
    (h : cfg.budgetHard ≤ st.totalCost) :
    ralphLoopAux cfg R files fuel st fs = mkStopped st fs := by
  cases fuel with
  | zero => rfl
  | succ n =>
    simp only [ralphLoopAux]
    by_cases hg : (st.cycle < cfg.maxCycles ∧ st.stopped = false)
    · rw [if_pos hg, if_pos h]
    · rw [if_neg hg]

theorem ralphLoopAux_cycleStartCosts (cfg : RalphConfig) (R : Reviewer)
    (files : List String) :
    ∀ (fuel : Nat) (st : RalphRunState) (fs : FS) (c : ℚ),
      c ∈ (ralphLoopAux cfg R files fuel st fs).cycleStartCosts →
      c < cfg.budgetHard := by
  intro fuel
  induction fuel with
  | zero =>
    intro st fs c hc
    simp [ralphLoopAux, mkStopped] at hc
  | succ n ih =>
    intro st fs c hc
    simp only [ralphLoopAux] at hc
    split at hc
    · split at hc
      · simp [mkStopped] at hc
      · next hbud =>
        split at hc
        · simp only [List.mem_singleton] at hc
          subst hc
          exact not_le.mp hbud
        · rcases List.mem_cons.mp hc with rfl | htail
          · exact not_le.mp hbud
          · exact ih _ _ _ htail
    · simp [mkStopped] at hc

/-- C3: the budget comparison `totalCost ≥ budgetHard` is evaluated at
the top of the main loop before each cycle: when it holds the run goes
straight to the stopped outcome with no reviewer call and no cycle
started; `runRalphCycle` itself never reads `budgetHard`, so a run is
never terminated mid-cycle by the budget; and every cycle that does
start was entered with `totalCost < budgetHard`. -/
theorem claim_C3 :
    (∀ (cfg : RalphConfig) (R : Reviewer) (files : List String)
        (st : RalphRunState) (fs : FS),
      cfg.budgetHard ≤ st.totalCost →
      (ralphLoop cfg R files st fs).outcome.status = "stopped" ∧
      (ralphLoop cfg R files st fs).calls = [] ∧
      (ralphLoop cfg R files st fs).cycleStartCosts = []) ∧
    (∀ (cfg : RalphConfig) (b : ℚ) (R : Reviewer) (files : List String)
        (st : RalphRunState) (fs : FS),
      runRalphCycle { cfg with budgetHard := b } R files st fs =
        runRalphCycle cfg R files st fs) ∧
    (∀ (cfg : RalphConfig) (R : Reviewer) (files : List String)
        (st : RalphRunState) (fs : FS) (c : ℚ),
      c ∈ (ralphLoop cfg R files st fs).cycleStartCosts →
      c < cfg.budgetHard) := by
  refine ⟨?_, ?_, ?_⟩
  · intro cfg R files st fs h
    unfold ralphLoop
    rw [ralphLoopAux_budget_stop cfg R files _ st fs h]
    exact ⟨rfl, rfl, rfl⟩
  · intro cfg b R files st fs
    rfl
  · intro cfg R files st fs c hc
    exact ralphLoopAux_cycleStartCosts cfg R files _ st fs c hc

/-- C7: after a detection pass with auto-fixable count zero, the cycle
completes the run: reason `No issues found` when the issue list is
empty, reason `No auto-fixable issues remaining` carrying the full
remaining issue list otherwise; a completing cycle makes the main loop
end with status `complete`, the cycle's reason and its remaining list. -/
theorem claim_C7 :
    (∀ (cfg : RalphConfig) (R : Reviewer) (files : List String)
        (st : RalphRunState) (fs : FS) (det : Detection),
      R.detect fs files = .ok det →
      countAutoFixable cfg.safePatterns det.issues = 0 →
      (det.issues = [] →
        (runRalphCycle cfg R files st fs).res =
          { complete := true, reason := some ("No issues found") }) ∧
      (det.issues ≠ [] →
        (runRalphCycle cfg R files st fs).res =
          { complete := true, reason := some ("No auto-fixable issues remaining"),
            remainingIssues := some det.issues })) ∧
    (∀ (cfg : RalphConfig) (R : Reviewer) (files : List String)
        (st : RalphRunState) (fs : FS),
      st.cycle < cfg.maxCycles → st.stopped = false →
      st.totalCost < cfg.budgetHard →
      (runRalphCycle cfg R files st fs).res.complete = true →
      (ralphLoop cfg R files st fs).outcome.status = "complete" ∧
      (ralphLoop cfg R files st fs).outcome.reason =
        (runRalphCycle cfg R files st fs).res.reason.getD ("") ∧
      (ralphLoop cfg R files st fs).outcome.remainingIssues =
        (runRalphCycle cfg R files st fs).res.remainingIssues.getD []) := by
  constructor
  · intro cfg R files st fs det hdet haf
    constructor
    · intro hempty
      simp only [runRalphCycle, hdet, haf, hempty]
      rfl
    · intro hne
      have hne2 : det.issues.isEmpty = false := by
        simpa [List.isEmpty_iff] using hne
      simp only [runRalphCycle, hdet, haf, hne2]
      rfl
  · intro cfg R files st fs h1 h2 h3 hcomp
    unfold ralphLoop
    obtain ⟨n, hn⟩ : ∃ n, cfg.maxCycles - st.cycle = n + 1 :=
      ⟨cfg.maxCycles - st.cycle - 1, by omega⟩
    rw [hn]
    simp only [ralphLoopAux]
    rw [if_pos ⟨h1, h2⟩, if_neg (not_le.mpr h3)]
    rw [if_pos hcomp]
    refine ⟨rfl, rfl, rfl⟩

/-- C7 witness: a detection returning exactly one critical `api-key`
issue with `autoFixable: false` ends the run `complete` with reason
`No auto-fixable issues remaining` and a remaining-issues list of
length 1. -/
theorem claim_C7_witness :
    (ralphLoop scenarioCfg c7Reviewer ["a.ts"] initialRalphRunState fsEmpty).outcome.status = "complete" ∧
    (ralphLoop scenarioCfg c7Reviewer ["a.ts"] initialRalphRunState fsEmpty).outcome.reason =
      "No auto-fixable issues remaining" ∧
    (ralphLoop scenarioCfg c7Reviewer ["a.ts"] initialRalphRunState fsEmpty).outcome.remainingIssues.length = 1 := by
  have hcycle := (claim_C7.1 scenarioCfg c7Reviewer ["a.ts"] initialRalphRunState
      fsEmpty { issues := [c7Issue], totalIssues := 1, cost := 0 } rfl
      (by decide)).2 (by decide)
  have hloop := claim_C7.2 scenarioCfg c7Reviewer ["a.ts"] initialRalphRunState
      fsEmpty (by decide) rfl (by norm_num [scenarioCfg, initialRalphRunState])
      (by rw [hcycle])
  refine ⟨hloop.1, ?_, ?_⟩
  · rw [hloop.2.1, hcycle]
    rfl
  · rw [hloop.2.2, hcycle]
    rfl

theorem countDetectCalls_cons_detect (fl : List String) (l : List RCall) :
    countDetectCalls (RCall.detect fl :: l) = countDetectCalls l + 1 := by
  simp [countDetectCalls, List.filter_cons]

theorem countDetectCalls_cons_fix (f : String) (is2 : List Issue) (l : List RCall) :
    countDetectCalls (RCall.fix f is2 :: l) = countDetectCalls l := by
  simp [countDetectCalls, List.filter_cons]

theorem countDetectCalls_append (l1 l2 : List RCall) :
    countDetectCalls (l1 ++ l2) = countDetectCalls l1 + countDetectCalls l2 := by
  simp [countDetectCalls, List.filter_append]

theorem c8_fixloop (cfg : RalphConfig) (R : Reviewer)
    (hfix : ∀ (g : FS) (f : String) (is2 : List Issue),
      R.fix g f is2 = .ok ({ fixed := false, cost := 0 }, g))
    (st2 : RalphRunState) (fs2 : FS) :
    (fixFilesLoop cfg.backupFiles cfg.verifyAfterFix cfg.safePatterns R [c8Issue]
        ["a.ts"] st2 fs2).st.totalCost = st2.totalCost ∧
    countDetectCalls (fixFilesLoop cfg.backupFiles cfg.verifyAfterFix
        cfg.safePatterns R [c8Issue] ["a.ts"] st2 fs2).calls = 0 := by
  have hgaf : getAutoFixableForFile cfg.safePatterns [c8Issue] ("a.ts") = [c8Issue] := by
    simp [getAutoFixableForFile, fileMatches, c8Issue]
  simp only [fixFilesLoop, hgaf]
  rw [if_neg (by simp)]
  by_cases hskip : (cfg.backupFiles && !R.backupOk ("a.ts")) = true
  · rw [if_pos hskip]
    simp only [fixOneFile, hskip, if_true, fixFilesLoop]
    exact ⟨by simp, by simp [countDetectCalls]⟩
  · rw [if_neg hskip]
    have hskip2 : (cfg.backupFiles && !R.backupOk ("a.ts")) = false := by
      simpa using hskip
    simp only [fixOneFile, hskip2, Bool.false_eq_true, if_false, hfix]
    by_cases hstp : st2.stopped = true
    · rw [if_pos (by simpa using hstp)]
      constructor
      · simp
      · rw [countDetectCalls_cons_fix]
        rfl
    · rw [if_neg (by simpa using hstp)]
      simp only [fixFilesLoop]
      constructor
      · simp
      · rw [countDetectCalls_append, countDetectCalls_cons_fix]
        rfl

theorem c8_cycle (cfg : RalphConfig) (R : Reviewer)
    (hdet : ∀ (g : FS) (fl : List String),
      R.detect g fl = .ok { issues := [c8Issue], totalIssues := 1, cost := 0 })
    (hfix : ∀ (g : FS) (f : String) (is2 : List Issue),
      R.fix g f is2 = .ok ({ fixed := false, cost := 0 }, g))
    (files : List String) (st : RalphRunState) (fs : FS) :
    (runRalphCycle cfg R files st fs).res.complete = false ∧
    (runRalphCycle cfg R files st fs).st.totalCost = st.totalCost ∧
    countDetectCalls (runRalphCycle cfg R files st fs).calls = 1 := by
  have haf : countAutoFixable cfg.safePatterns [c8Issue] = 1 := by
    simp [countAutoFixable, c8Issue]
  have hfs : uniqueFiles (List.map (fun i => i.file) [c8Issue]) = ["a.ts"] := by
    simp [uniqueFiles, c8Issue]
  simp only [runRalphCycle, hdet]
  rw [if_neg (by rw [haf]; omega)]
  rw [hfs]
  obtain ⟨h1, h2⟩ := c8_fixloop cfg R hfix
    { st with cycle := st.cycle + 1,
              totalCost := st.totalCost + ({ issues := [c8Issue], totalIssues := 1, cost := 0 } : Detection).cost,
              totalIssuesFound := st.totalIssuesFound + [c8Issue].length } fs
  refine ⟨rfl, ?_, ?_⟩
  · rw [h1]
    simp
  · rw [countDetectCalls_cons_detect, h2]

theorem c8_loop (cfg : RalphConfig) (R : Reviewer) (files : List String)
    (hbud : 0 < cfg.budgetHard)
    (hdet : ∀ (g : FS) (fl : List String),
      R.detect g fl = .ok { issues := [c8Issue], totalIssues := 1, cost := 0 })
    (hfix : ∀ (g : FS) (f : String) (is2 : List Issue),
      R.fix g f is2 = .ok ({ fixed := false, cost := 0 }, g)) :
    ∀ (fuel : Nat) (st : RalphRunState) (fs : FS),
      st.totalCost = 0 → st.stopped = false → fuel = cfg.maxCycles - st.cycle →
      (ralphLoopAux cfg R files fuel st fs).outcome.status = "stopped" ∧
      (ralphLoopAux cfg R files fuel st fs).outcome.reason = "Max cycles reached" ∧
      (ralphLoopAux cfg R files fuel st fs).st.cycle = st.cycle + fuel ∧
      countDetectCalls (ralphLoopAux cfg R files fuel st fs).calls = fuel ∧
      (ralphLoopAux cfg R files fuel st fs).cycleStartCosts =
        List.replicate fuel (0 : ℚ) := by
  intro fuel
  induction fuel with
  | zero =>
    intro st fs hc0 hstp hfuel
    refine ⟨rfl, ?_, rfl, rfl, rfl⟩
    simp [ralphLoopAux, mkStopped, hstp]
  | succ n ih =>
    intro st fs hc0 hstp hfuel
    have hcyc : st.cycle < cfg.maxCycles := by omega
    obtain ⟨hcomp, hcost, hcalls⟩ := c8_cycle cfg R hdet hfix files st fs
    have hstopped := runRalphCycle_st_stopped cfg R files st fs
    have hcycle1 := runRalphCycle_st_cycle cfg R files st fs
    simp only [ralphLoopAux]
    rw [if_pos ⟨hcyc, hstp⟩, if_neg (by rw [hc0]; exact not_le.mpr hbud)]
    rw [if_neg (by rw [hcomp]; exact Bool.false_ne_true)]
    obtain ⟨ih1, ih2, ih3, ih4, ih5⟩ := ih (runRalphCycle cfg R files st fs).st
      (runRalphCycle cfg R files st fs).fs
      (by rw [hcost]; exact hc0)
      (by rw [hstopped]; exact hstp)
      (by rw [hcycle1]; omega)
    refine ⟨ih1, ih2, ?_, ?_, ?_⟩
    · show (ralphLoopAux cfg R files n _ _).st.cycle = _
      rw [ih3, hcycle1]
      omega
    · show countDetectCalls (_ ++ _) = n + 1
      rw [countDetectCalls_append, hcalls, ih4]
      omega
    · show st.totalCost :: _ = _
      rw [ih5, hc0]
      rfl

theorem c8Reviewer_run :
    (ralphLoop scenarioCfg c8Reviewer ["a.ts"] initialRalphRunState fsEmpty).outcome.status = "stopped" ∧
    (ralphLoop scenarioCfg c8Reviewer ["a.ts"] initialRalphRunState fsEmpty).outcome.reason = "Max cycles reached" ∧
    (ralphLoop scenarioCfg c8Reviewer ["a.ts"] initialRalphRunState fsEmpty).st.cycle = 3 ∧
    countDetectCalls (ralphLoop scenarioCfg c8Reviewer ["a.ts"] initialRalphRunState fsEmpty).calls = 3 ∧
    (ralphLoop scenarioCfg c8Reviewer ["a.ts"] initialRalphRunState fsEmpty).cycleStartCosts = [0, 0, 0] := by
  have h := c8_loop scenarioCfg c8Reviewer ["a.ts"]
    (by norm_num [scenarioCfg]) (fun g fl => rfl) (fun g f is2 => rfl)
    3 initialRalphRunState fsEmpty rfl rfl (by decide)
  exact ⟨h.1, h.2.1, h.2.2.1, h.2.2.2.1, h.2.2.2.2⟩

/-- C8 counterexample: the bounded-looping scenario run (maxCycles 3,
reviewer always reporting one unresolved auto-fixable issue on `a.ts`)
does stop after exactly 3 cycles and 3 detection passes, but its reason
string is `Max cycles reached`, not the claimed `max cycles reached`. -/
theorem claim_C8_counterexample :
    (runRalphMode scenarioCfg c8Reviewer ["a.ts"] fsEmpty).outcome.status = "stopped" ∧
    (runRalphMode scenarioCfg c8Reviewer ["a.ts"] fsEmpty).st.cycle = 3 ∧
    countDetectCalls (runRalphMode scenarioCfg c8Reviewer ["a.ts"] fsEmpty).calls = 3 ∧
    (runRalphMode scenarioCfg c8Reviewer ["a.ts"] fsEmpty).outcome.reason ≠ "max cycles reached" := by
  have h := c8Reviewer_run
  refine ⟨h.1, h.2.2.1, h.2.2.2.1, ?_⟩
  have hr : (runRalphMode scenarioCfg c8Reviewer ["a.ts"] fsEmpty).outcome.reason =
      "Max cycles reached" := h.2.1
  rw [hr]
  decide

/-- C8 (amended): with `maxCycles = 3` and an external reviewer that on
every detection pass reports exactly one unresolved auto-fixable issue
on file `a.ts` (fixes report no change, zero costs), the run executes
exactly 3 cycles — 3 detection passes, the loop guard
`cycle < maxCycles` with `cycle` incremented once per cycle — and then
terminates with status `stopped` and reason `Max cycles reached`
(capital M), never running a fourth cycle. -/
theorem claim_C8_amended (cfg : RalphConfig) (R : Reviewer)
    (files : List String) (fs : FS)
    (hmax : cfg.maxCycles = 3) (hbud : 0 < cfg.budgetHard)
    (hfiles : files.isEmpty = false)
    (hdet : ∀ (g : FS) (fl : List String),
      R.detect g fl = .ok { issues := [c8Issue], totalIssues := 1, cost := 0 })
    (hfix : ∀ (g : FS) (f : String) (is2 : List Issue),
      R.fix g f is2 = .ok ({ fixed := false, cost := 0 }, g)) :
    (runRalphMode cfg R files fs).outcome.status = "stopped" ∧
    (runRalphMode cfg R files fs).outcome.reason = "Max cycles reached" ∧
    (runRalphMode cfg R files fs).st.cycle = 3 ∧
    countDetectCalls (runRalphMode cfg R files fs).calls = 3 := by
  have h := c8_loop cfg R files hbud hdet hfix 3 initialRalphRunState fs rfl rfl
    (by simp [hmax, initialRalphRunState])
  simp only [runRalphMode, hfiles, Bool.false_eq_true, if_false]
  rw [ralphLoop, show cfg.maxCycles - initialRalphRunState.cycle = 3 from
    by simp [hmax, initialRalphRunState]]
  exact ⟨h.1, h.2.1, h.2.2.1, h.2.2.2.1⟩

/-- C8 witness: the amended statement applied to the concrete scenario
configuration and reviewer. -/
theorem claim_C8_witness :
    (runRalphMode scenarioCfg c8Reviewer ["b.ts"] fsEmpty).outcome.status = "stopped" ∧
    (runRalphMode scenarioCfg c8Reviewer ["b.ts"] fsEmpty).outcome.reason = "Max cycles reached" ∧
    (runRalphMode scenarioCfg c8Reviewer ["b.ts"] fsEmpty).st.cycle = 3 ∧
    countDetectCalls (runRalphMode scenarioCfg c8Reviewer ["b.ts"] fsEmpty).calls = 3 :=
  claim_C8_amended scenarioCfg c8Reviewer ["b.ts"] fsEmpty rfl
    (by norm_num [scenarioCfg]) rfl (fun g fl => rfl) (fun g f is2 => rfl)

/-- C3 witness: a run state already at cost 25 against the hard budget 20
stops with no reviewer call; `runRalphCycle` is literally independent of
`budgetHard`; and the cost observed at a started cycle of the bounded
scenario is below the hard budget. -/
theorem claim_C3_witness :
    (ralphLoop scenarioCfg c8Reviewer ["a.ts"]
        { cycle := 0, totalCost := 25, totalFixed := 0, totalIssuesFound := 0,
          stopped := false } fsEmpty).outcome.status = "stopped" ∧
    (ralphLoop scenarioCfg c8Reviewer ["a.ts"]
        { cycle := 0, totalCost := 25, totalFixed := 0, totalIssuesFound := 0,
          stopped := false } fsEmpty).calls = [] ∧
    runRalphCycle { scenarioCfg with budgetHard := 999 } c8Reviewer ["a.ts"]
        initialRalphRunState fsEmpty =
      runRalphCycle scenarioCfg c8Reviewer ["a.ts"] initialRalphRunState fsEmpty ∧
    (0 : ℚ) < scenarioCfg.budgetHard := by
  have h1 := claim_C3.1 scenarioCfg c8Reviewer ["a.ts"]
    { cycle := 0, totalCost := 25, totalFixed := 0, totalIssuesFound := 0,
      stopped := false } fsEmpty (by norm_num [scenarioCfg])
  have h3 := claim_C3.2.2 scenarioCfg c8Reviewer ["a.ts"] initialRalphRunState
    fsEmpty 0 (by rw [c8Reviewer_run.2.2.2.2]; simp)
  exact ⟨h1.1, h1.2.1,
    claim_C3.2.1 scenarioCfg 999 c8Reviewer ["a.ts"] initialRalphRunState fsEmpty, h3⟩

theorem CostLogOK_trans :
    ∀ (l1 : List ℚ) (c0 c1 c2 : ℚ) (l2 : List ℚ),
      CostLogOK c0 l1 c1 → CostLogOK c1 l2 c2 → CostLogOK c0 (l1 ++ l2) c2 := by
  intro l1
  induction l1 with
  | nil =>
    intro c0 c1 c2 l2 h1 h2
    rw [show c1 = c0 from h1] at h2
    exact h2
  | cons x t ih =>
    intro c0 c1 c2 l2 h1 h2
    exact ⟨h1.1, ih x c1 c2 l2 h1.2 h2⟩

theorem CostLogOK_le :
    ∀ (l : List ℚ) (c0 cfin : ℚ), CostLogOK c0 l cfin → c0 ≤ cfin := by
  intro l
  induction l with
  | nil => intro c0 cfin h; rw [h]
  | cons x t ih =>
    intro c0 cfin h
    exact le_trans h.1 (ih x cfin h.2)

theorem CostLogOK_chain :
    ∀ (l : List ℚ) (c0 cfin : ℚ), CostLogOK c0 l cfin →
      List.Chain' (· ≤ ·) (c0 :: l) := by
  intro l
  induction l with
  | nil => intro c0 cfin h; exact List.chain'_singleton c0
  | cons x t ih =>
    intro c0 cfin h
    exact List.chain'_cons.mpr ⟨h.1, ih x cfin h.2⟩

theorem dashChainOK_trans :
    ∀ (es1 : List DashEvent) (c0 c1 c2 : ℚ) (es2 : List DashEvent),
      dashChainOK c0 es1 c1 → dashChainOK c1 es2 c2 →
      dashChainOK c0 (es1 ++ es2) c2 := by
  intro es1
  induction es1 with
  | nil =>
    intro c0 c1 c2 es2 h1 h2
    rw [show c1 = c0 from h1] at h2
    exact h2
  | cons e t ih =>
    intro c0 c1 c2 es2 h1 h2
    exact ⟨h1.1, ih _ c1 c2 es2 h1.2 h2⟩

theorem dashChainOK_neutral :
    ∀ (es : List DashEvent), (∀ e ∈ es, ∀ x : ℚ, dstep x e = x) →
      ∀ c : ℚ, dashChainOK c es c := by
  intro es
  induction es with
  | nil => intro h c; rfl
  | cons e t ih =>
    intro h c
    refine ⟨?_, ?_⟩
    · rw [h e (List.mem_cons_self e t) c]
    · rw [h e (List.mem_cons_self e t) c]
      exact ih (fun x hx => h x (List.mem_cons_of_mem e hx)) c

theorem dashChainOK_chain_scanl :
    ∀ (es : List DashEvent) (c cfin : ℚ), dashChainOK c es cfin →
      List.Chain' (· ≤ ·) (List.scanl dstep c es) := by
  intro es
  induction es with
  | nil =>
    intro c cfin h
    simp
  | cons e t ih =>
    intro c cfin h
    rw [List.scanl_cons]
    cases t with
    | nil =>
      simp only [List.scanl_cons, List.scanl_nil]
      exact List.chain'_cons.mpr ⟨h.1, List.chain'_singleton _⟩
    | cons e2 t2 =>
      rw [List.scanl_cons]
      refine List.chain'_cons.mpr ⟨h.1, ?_⟩
      have := ih (dstep c e) cfin h.2
      rwa [List.scanl_cons] at this

theorem detStep_totalCost (s : RalphDashState) (i : InIssue) :
    (detStep s i).totalCost = s.totalCost := by
  unfold detStep
  dsimp only
  split <;> rfl

theorem startFixStep_totalCost (s : RalphDashState) (id : String) :
    (startFixStep s id).totalCost = s.totalCost := rfl

theorem fixDoneStep_totalCost (s : RalphDashState) (id : String) :
    (fixDoneStep s id).totalCost = s.totalCost := rfl

theorem fixFailStep_totalCost (s : RalphDashState) (id : String) :
    (fixFailStep s id).totalCost = s.totalCost := rfl

theorem foldl_keeps_totalCost {α : Type} {f : RalphDashState → α → RalphDashState}
    (hf : ∀ s a, (f s a).totalCost = s.totalCost) :
    ∀ (l : List α) (s : RalphDashState), (l.foldl f s).totalCost = s.totalCost := by
  intro l
  induction l with
  | nil => intro s; rfl
  | cons a t ih =>
    intro s
    rw [List.foldl_cons, ih, hf]

theorem updateRalphState_totalCost (e : DashEvent) (s : RalphDashState) :
    (updateRalphState e s).totalCost = dstep s.totalCost e := by
  cases e with
  | ralph_started m b => rfl
  | cycle_started a b => rfl
  | detection_started n => rfl
  | detection_complete issues cost =>
    have hbase : (match issues with
        | some l => l.foldl detStep { s with issues := [], fixing := [] }
        | none => { s with issues := [], fixing := [] }).totalCost = s.totalCost := by
      cases issues with
      | none => rfl
      | some l => exact foldl_keeps_totalCost detStep_totalCost l _
    simp only [updateRalphState, dstep]
    cases cost with
    | none => exact hbase
    | some c =>
      by_cases hc : c = 0
      · simp only [hc, if_pos rfl]
        exact hbase
      · simp only [if_neg hc]
        rw [hbase]
  | fix_started f ids =>
    show (match ids with
        | some l => l.foldl startFixStep s
        | none => s).totalCost = s.totalCost
    cases ids with
    | none => rfl
    | some l => exact foldl_keeps_totalCost startFixStep_totalCost l s
  | fix_progress f pr => rfl
  | fix_complete fixed failed =>
    show (match failed with
        | some l => l.foldl fixFailStep (match fixed with
            | some l2 => l2.foldl fixDoneStep s
            | none => s)
        | none => (match fixed with
            | some l2 => l2.foldl fixDoneStep s
            | none => s)).totalCost = s.totalCost
    have h1 : (match fixed with
        | some l2 => l2.foldl fixDoneStep s
        | none => s).totalCost = s.totalCost := by
      cases fixed with
      | none => rfl
      | some l2 => exact foldl_keeps_totalCost fixDoneStep_totalCost l2 s
    cases failed with
    | none => exact h1
    | some l => rw [foldl_keeps_totalCost fixFailStep_totalCost l _, h1]
  | cost_update t => rfl
  | budget_warning a b => rfl
  | verification_result f v r => rfl
  | cycle_complete c => rfl
  | ralph_complete t s2 r => rfl
  | log_entry m lv => rfl

theorem dashCostTrace_scanl :
    ∀ (es : List DashEvent) (d : RalphDashState),
      dashCostTrace d es = List.scanl dstep d.totalCost es := by
  intro es
  induction es with
  | nil => intro d; rfl
  | cons e t ih =>
    intro d
    unfold dashCostTrace
    rw [List.scanl_cons, List.scanl_cons, List.map_append]
    have h2 := ih (updateRalphState e d)
    unfold dashCostTrace at h2
    rw [h2, updateRalphState_totalCost]
    rfl

theorem jsOrQ_self (T : ℚ) : jsOrQ (some T) T = T := by
  by_cases h : T = 0 <;> simp [jsOrQ, h]

theorem jsOrQ_mono (x T : ℚ) (h1 : x ≤ T) (h2 : 0 ≤ x) :
    x ≤ jsOrQ (some T) x ∧ jsOrQ (some T) x = T := by
  by_cases h : T = 0
  · subst h
    have hx : x = 0 := le_antisymm h1 h2
    simp [jsOrQ, hx]
  · refine ⟨?_, ?_⟩ <;> simp [jsOrQ, h, h1]

theorem fixOneFile_costLogOK (bF vF : Bool) (R : Reviewer) (file : String)
    (fileIssues : List Issue) (st : RalphRunState) (fs : FS)
    (hR : ReviewerNonneg R) :
    CostLogOK st.totalCost (fixOneFile bF vF R file fileIssues st fs).costLog
      (fixOneFile bF vF R file fileIssues st fs).st.totalCost := by
  unfold fixOneFile
  dsimp only
  split
  · exact rfl
  · split
    · exact rfl
    · rename_i x fr fs1 heq
      have hc := hR.2 fs file fileIssues fr fs1 heq
      split
      · split
        · split
          · exact ⟨by linarith, le_add_of_nonneg_right (by norm_num), rfl⟩
          · exact ⟨by linarith, le_add_of_nonneg_right (by norm_num), rfl⟩
        · exact ⟨by linarith, rfl⟩
      · exact ⟨by linarith, rfl⟩

theorem fixFilesLoop_costLogOK (bF vF : Bool) (sp : List String) (R : Reviewer)
    (issues : List Issue) (hR : ReviewerNonneg R) :
    ∀ (files : List String) (st : RalphRunState) (fs : FS),
      CostLogOK st.totalCost
        (fixFilesLoop bF vF sp R issues files st fs).costLog
        (fixFilesLoop bF vF sp R issues files st fs).st.totalCost := by
  intro files
  induction files with
  | nil => intro st fs; exact rfl
  | cons f rest ih =>
    intro st fs
    simp only [fixFilesLoop]
    split
    · exact ih st fs
    · split
      · exact CostLogOK_trans _ _ _ _ _
          (fixOneFile_costLogOK bF vF R f _ st fs hR) (ih _ _)
      · split
        · exact fixOneFile_costLogOK bF vF R f _ st fs hR
        · exact CostLogOK_trans _ _ _ _ _
            (fixOneFile_costLogOK bF vF R f _ st fs hR) (ih _ _)

theorem runRalphCycle_costLogOK (cfg : RalphConfig) (R : Reviewer)
    (files : List String) (st : RalphRunState) (fs : FS)
    (hR : ReviewerNonneg R) :
    CostLogOK st.totalCost (runRalphCycle cfg R files st fs).costLog
      (runRalphCycle cfg R files st fs).st.totalCost := by
  unfold runRalphCycle
  dsimp only
  split
  · exact rfl
  · rename_i x det heq
    have hd := hR.1 fs files det heq
    split
    · split
      · exact ⟨by linarith, rfl⟩
      · exact ⟨by linarith, rfl⟩
    · exact ⟨by linarith,
        fixFilesLoop_costLogOK cfg.backupFiles cfg.verifyAfterFix cfg.safePatterns
          R det.issues hR (uniqueFiles (List.map (fun i => i.file) det.issues))
          { cycle := st.cycle + 1, totalCost := st.totalCost + det.cost,
            totalFixed := st.totalFixed,
            totalIssuesFound := st.totalIssuesFound + det.issues.length,
            stopped := st.stopped } fs⟩

theorem ralphLoopAux_costLogOK (cfg : RalphConfig) (R : Reviewer)
    (files : List String) (hR : ReviewerNonneg R) :
    ∀ (fuel : Nat) (st : RalphRunState) (fs : FS),
      CostLogOK st.totalCost (ralphLoopAux cfg R files fuel st fs).costLog
        (ralphLoopAux cfg R files fuel st fs).st.totalCost := by
  intro fuel
  induction fuel with
  | zero => intro st fs; exact rfl
  | succ n ih =>
    intro st fs
    simp only [ralphLoopAux]
    split
    · split
      · exact rfl
      · split
        · exact runRalphCycle_costLogOK cfg R files st fs hR
        · exact CostLogOK_trans _ _ _ _ _
            (runRalphCycle_costLogOK cfg R files st fs hR) (ih _ _)
    · exact rfl

theorem fixOneFile_dash (bF vF : Bool) (R : Reviewer) (file : String)
    (fileIssues : List Issue) (st : RalphRunState) (fs : FS) (c : ℚ) :
    dashChainOK c (fixOneFile bF vF R file fileIssues st fs).events c := by
  unfold fixOneFile
  dsimp only
  repeat' split
  all_goals first
    | exact ⟨le_refl c, rfl⟩
    | exact ⟨le_refl c, le_refl c, rfl⟩
    | exact ⟨le_refl c, le_refl c, le_refl c, rfl⟩

theorem fixFilesLoop_dash (bF vF : Bool) (sp : List String) (R : Reviewer)
    (issues : List Issue) :
    ∀ (files : List String) (st : RalphRunState) (fs : FS) (c : ℚ),
      dashChainOK c (fixFilesLoop bF vF sp R issues files st fs).events c := by
  intro files
  induction files with
  | nil => intro st fs c; exact rfl
  | cons f rest ih =>
    intro st fs c
    simp only [fixFilesLoop]
    split
    · exact ih st fs c
    · split
      · exact dashChainOK_trans _ _ _ _ _ (fixOneFile_dash bF vF R f _ st fs c) (ih _ _ c)
      · split
        · exact fixOneFile_dash bF vF R f _ st fs c
        · exact dashChainOK_trans _ _ _ _ _ (fixOneFile_dash bF vF R f _ st fs c) (ih _ _ c)

theorem dstep_detection_complete (c : ℚ) (i : Option (List InIssue)) (k : ℚ) :
    dstep c (DashEvent.detection_complete i (some k)) = c + k := by
  by_cases h : k = 0
  · simp [dstep, h]
  · simp [dstep, h]

theorem runRalphCycle_dash (cfg : RalphConfig) (R : Reviewer)
    (files : List String) (st : RalphRunState) (fs : FS)
    (hR : ReviewerNonneg R) (h0 : 0 ≤ st.totalCost) :
    dashChainOK st.totalCost (runRalphCycle cfg R files st fs).events
      (runRalphCycle cfg R files st fs).st.totalCost := by
  unfold runRalphCycle
  dsimp only
  split
  · exact ⟨le_refl _, le_refl _, rfl⟩
  · rename_i x det heq
    have hd := hR.1 fs files det heq
    have hB : dashChainOK st.totalCost
        [DashEvent.detection_complete (some (det.issues.map (emittedIssue cfg.safePatterns))) (some det.cost),
         DashEvent.cost_update (some (st.totalCost + det.cost))]
        (st.totalCost + det.cost) := by
      refine ⟨?_, ?_⟩
      · rw [dstep_detection_complete]
        linarith
      · rw [dstep_detection_complete]
        refine ⟨?_, ?_⟩
        · show _ ≤ jsOrQ (some (st.totalCost + det.cost)) (st.totalCost + det.cost)
          rw [jsOrQ_self]
        · show _ = jsOrQ (some (st.totalCost + det.cost)) (st.totalCost + det.cost)
          rw [jsOrQ_self]
    have hA : dashChainOK st.totalCost
        [DashEvent.cycle_started (st.cycle + 1) cfg.maxCycles,
         DashEvent.detection_started files.length] st.totalCost :=
      ⟨le_refl _, le_refl _, rfl⟩
    split
    · split
      · exact dashChainOK_trans _ _ _ _ _ hA hB
      · exact dashChainOK_trans _ _ _ _ _ hA hB
    · set lo := fixFilesLoop cfg.backupFiles cfg.verifyAfterFix cfg.safePatterns
        R det.issues (uniqueFiles (List.map (fun i => i.file) det.issues))
        { cycle := st.cycle + 1, totalCost := st.totalCost + det.cost,
          totalFixed := st.totalFixed,
          totalIssuesFound := st.totalIssuesFound + det.issues.length,
          stopped := st.stopped } fs with hlo
      have hloop : CostLogOK (st.totalCost + det.cost) lo.costLog lo.st.totalCost := by
        rw [hlo]
        exact fixFilesLoop_costLogOK cfg.backupFiles cfg.verifyAfterFix
          cfg.safePatterns R det.issues hR
          (uniqueFiles (List.map (fun i => i.file) det.issues))
          { cycle := st.cycle + 1, totalCost := st.totalCost + det.cost,
            totalFixed := st.totalFixed,
            totalIssuesFound := st.totalIssuesFound + det.issues.length,
            stopped := st.stopped } fs
      have hle : st.totalCost + det.cost ≤ lo.st.totalCost := CostLogOK_le _ _ _ hloop
      have hm := jsOrQ_mono (st.totalCost + det.cost) lo.st.totalCost hle (by linarith)
      have hAB := dashChainOK_trans _ _ _ _ _ hA hB
      have hD : dashChainOK (st.totalCost + det.cost)
          [DashEvent.cycle_complete (some lo.st.totalCost)] lo.st.totalCost :=
        ⟨hm.1, hm.2.symm⟩
      exact dashChainOK_trans _ _ _ _ _
        (dashChainOK_trans _ _ _ _ _ hAB
          (fixFilesLoop_dash cfg.backupFiles cfg.verifyAfterFix cfg.safePatterns
            R det.issues _ _ fs _)) hD

theorem mkStopped_dash (st : RalphRunState) (fs : FS) :
    dashChainOK st.totalCost (mkStopped st fs).events st.totalCost := by
  refine ⟨?_, ?_⟩
  · show st.totalCost ≤ jsOrQ (some st.totalCost) st.totalCost
    rw [jsOrQ_self]
  · show st.totalCost = jsOrQ (some st.totalCost) st.totalCost
    rw [jsOrQ_self]

theorem ralphLoopAux_dash (cfg : RalphConfig) (R : Reviewer)
    (files : List String) (hR : ReviewerNonneg R) :
    ∀ (fuel : Nat) (st : RalphRunState) (fs : FS), 0 ≤ st.totalCost →
      dashChainOK st.totalCost (ralphLoopAux cfg R files fuel st fs).events
        (ralphLoopAux cfg R files fuel st fs).st.totalCost := by
  intro fuel
  induction fuel with
  | zero => intro st fs h0; exact mkStopped_dash st fs
  | succ n ih =>
    intro st fs h0
    simp only [ralphLoopAux, mkComplete]
    split
    · split
      · exact mkStopped_dash st fs
      · have hwarn : dashChainOK st.totalCost
            (if cfg.budgetWarning ≤ st.totalCost ∧ 1 < st.cycle then
              [DashEvent.budget_warning st.totalCost cfg.budgetWarning]
             else []) st.totalCost := by
          split
          · exact ⟨le_refl _, rfl⟩
          · exact rfl
        have hcyc := runRalphCycle_dash cfg R files st fs hR h0
        have hcost := runRalphCycle_costLogOK cfg R files st fs hR
        have h02 : 0 ≤ (runRalphCycle cfg R files st fs).st.totalCost :=
          le_trans h0 (CostLogOK_le _ _ _ hcost)
        split
        · refine dashChainOK_trans _ _ _ _ _ hwarn
            (dashChainOK_trans _ _ _ _ _ hcyc ?_)
          refine ⟨?_, ?_⟩
          · show _ ≤ jsOrQ (some (runRalphCycle cfg R files st fs).st.totalCost)
              (runRalphCycle cfg R files st fs).st.totalCost
            rw [jsOrQ_self]
          · show _ = jsOrQ (some (runRalphCycle cfg R files st fs).st.totalCost)
              (runRalphCycle cfg R files st fs).st.totalCost
            rw [jsOrQ_self]
        · exact dashChainOK_trans _ _ _ _ _
            (dashChainOK_trans _ _ _ _ _ hwarn hcyc) (ih _ _ h02)
    · exact mkStopped_dash st fs

/-- C2: for one run, `totalCost` is monotonically non-decreasing on both
sides, provided the external engine reports non-negative costs: the
successive values taken by the orchestrator's `ralphState.totalCost`
(detection cost, fix cost and the verification estimate additions) form
a ≤-chain starting at 0, and folding the run's emitted events through
the dashboard reducer (`detection_complete`, `cost_update`,
`cycle_complete`, `ralph_complete`) makes the dashboard's `totalCost`
non-decreasing as well. -/
theorem claim_C2 (cfg : RalphConfig) (R : Reviewer) (files : List String)
    (fs : FS) (hR : ReviewerNonneg R) :
    List.Chain' (· ≤ ·) ((0 : ℚ) :: (runRalphMode cfg R files fs).costLog) ∧
    List.Chain' (· ≤ ·)
      (dashCostTrace initialRalphDashState (runRalphMode cfg R files fs).events) := by
  constructor
  · unfold runRalphMode
    split
    · simp
    · exact CostLogOK_chain _ _ _
        (ralphLoopAux_costLogOK cfg R files hR
          (cfg.maxCycles - initialRalphRunState.cycle) initialRalphRunState fs)
  · rw [dashCostTrace_scanl]
    unfold runRalphMode
    split
    · simp
    · refine dashChainOK_chain_scanl _ _
        ((ralphLoop cfg R files initialRalphRunState fs).st.totalCost) ?_
      exact ⟨le_refl _,
        ralphLoopAux_dash cfg R files hR
          (cfg.maxCycles - initialRalphRunState.cycle) initialRalphRunState fs
          (le_refl 0)⟩

/-- C2 witness: the monotonicity instantiated on the concrete
bounded-looping reviewer, whose detection and fix costs are 0. -/
theorem claim_C2_witness :
    List.Chain' (· ≤ ·)
      ((0 : ℚ) :: (runRalphMode scenarioCfg c8Reviewer ["a.ts"] fsEmpty).costLog) ∧
    List.Chain' (· ≤ ·)
      (dashCostTrace initialRalphDashState
        (runRalphMode scenarioCfg c8Reviewer ["a.ts"] fsEmpty).events) :=
  claim_C2 scenarioCfg c8Reviewer ["a.ts"] fsEmpty
    ⟨fun g fl det h => by
        injection h with h2
        rw [← h2],
     fun g f is2 fr fs2 h => by
        injection h with h2
        injection h2 with h3 h4
        rw [← h3]⟩
